import Mathlib

/-!
Verification development for the cactuscomply-taxrates repository.

The repository's loader scripts and Flask web layer ingest government tax-rate
CSV files into a relational store (jurisdictions, business_class_codes,
rate_versions, rates).  This file gives a shallow embedding of the data model
and of the ingestion operations that the specification talks about, translated
from the Python sources:

  * `src/scripts/004_add_monthly_rates.py`  - `parse_rate`,
    `build_jurisdiction_cache`, `get_or_create_rate_version`,
    `add_rates_from_csv`
  * `src/scripts/004b_load_historical_county_rates.py` - `parse_date`,
    `load_rates_from_csv` (parse/group phase and load phase)
  * `src/scripts/003_restore_and_sync_rates.py` - the jurisdiction cache,
    `ensure_jurisdiction_exists`, the historical last-write-wins dedup from
    `main`, the staging part of `sync_ador_csvs`, and the batch-insert loops
    of `merge_historical_rates` and `sync_ador_csvs`
  * `src/app.py` - `parse_csv_content`, `upsert_business_codes`,
    `upsert_jurisdictions`, `create_rate_version`, `upsert_tax_rates`

Modelling conventions: Python floats are modelled as rationals (`ℚ`); the
remote store is a record of lists; Python dicts are association lists with
insertion order and overwrite-in-place semantics; a fallible store insert is
modelled by a predicate marking the rows the store rejects.
-/

/-! ## Python-dict style association lists -/

/-- Look up a key in an insertion-ordered association list (Python `dict.get`). -/
def dictGet {κ α : Type} [DecidableEq κ] (l : List (κ × α)) (k : κ) : Option α :=
  (l.find? (fun p => p.1 = k)).map (·.2)

/-- Python `d[k] = v`: overwrite the value of the (unique) occurrence of the key
in place, otherwise append the new binding at the end (dicts preserve insertion
order). -/
def dictInsert {κ α : Type} [DecidableEq κ] : List (κ × α) → κ → α → List (κ × α)
  | [], k, v => [(k, v)]
  | p :: t, k, v => if p.1 = k then (k, v) :: t else p :: dictInsert t k v

/-! ## Numeric parsing (Python `float`, `round`, `parse_rate`) -/

/-- Python `str.strip()` on a character list: drop whitespace at both ends. -/
def trimL (l : List Char) : List Char :=
  ((l.dropWhile Char.isWhitespace).reverse.dropWhile Char.isWhitespace).reverse

/-- Python `str.strip()` on strings (via `trimL`, so concrete instances
reduce in the kernel). -/
def pyStrip (s : String) : String :=
  ⟨trimL s.toList⟩

/-- Value of a digit string (caller checks the characters are digits). -/
def digitsVal (l : List Char) : ℕ :=
  l.foldl (fun n c => 10 * n + (c.toNat - 48)) 0

/-- Digit-level shape of a Python `float()` decimal numeral: sign flag,
integer-part value, fractional-part value, number of fractional digits.  The
string analysis is kept separate from the rational interpretation so concrete
instances reduce in the kernel. -/
def floatRep (l : List Char) : Option (Bool × ℕ × ℕ × ℕ) :=
  let t := trimL l
  let sb : Bool × List Char :=
    match t with
    | '-' :: r => (true, r)
    | '+' :: r => (false, r)
    | _ => (false, t)
  let body := sb.2
  let ip := body.takeWhile (fun c => !(c == '.'))
  let fp := (body.dropWhile (fun c => !(c == '.'))).drop 1
  if (ip ++ fp).all Char.isDigit && !(ip.isEmpty && fp.isEmpty) && !(fp.contains '.') then
    some (sb.1, digitsVal ip, digitsVal fp, fp.length)
  else none

/-- Rational value of a parsed decimal numeral. -/
def qOfRep : Bool × ℕ × ℕ × ℕ → ℚ
  | (neg, i, f, d) => (if neg then -1 else 1) * ((i : ℚ) + (f : ℚ) / (10 : ℚ) ^ d)

/-- Models Python `float()` on plain decimal numerals: optional sign, digits
with at most one decimal point, at least one digit, surrounding whitespace
tolerated.  Scientific notation, underscores, `inf` and `nan` are outside the
fragment the rate tables use and are not modelled. -/
def parseFloatQCore (l : List Char) : Option ℚ :=
  (floatRep l).map qOfRep

/-- Round to the nearest integer, ties to even (Python `round`'s tie rule). -/
def roundHalfEven (x : ℚ) : ℤ :=
  let n := ⌊x⌋
  let f := x - n
  if f < 1/2 then n
  else if (1 : ℚ)/2 < f then n + 1
  else if n % 2 = 0 then n else n + 1

/-- Python `round(x, 6)`: six decimal fractional digits, ties to even. -/
def pyRound6 (x : ℚ) : ℚ :=
  (roundHalfEven (x * 1000000) : ℚ) / 1000000

/-- Remove every `'%'` character (Python `rate_str.replace("%", "")`). -/
def removePctL (l : List Char) : List Char :=
  l.filter (fun c => !(c == '%'))

/-- Embeds `parse_rate` of `004_add_monthly_rates.py` (the identical copy in
`004b_load_historical_county_rates.py` is this same function): strip
whitespace, remove `%`, parse as a float; a value greater than 1 is taken as a
percentage and divided by 100; the result is rounded to 6 decimal digits; a
parse failure yields 0.0 with a warning. -/
def parse_rate (s : String) : ℚ :=
  if s = "" then 0
  else
    match parseFloatQCore (removePctL (trimL s.toList)) with
    | none => 0
    | some r => pyRound6 (if 1 < r then r / 100 else r)

/-- Embeds the inline rate normalisation of `parse_csv_content` in `app.py`:
`float(tax_rate.replace('%',''))`, divided by 100 only when greater than 1,
no rounding; a parse failure yields 0.0. -/
def appRateDecimal (s : String) : ℚ :=
  match parseFloatQCore (removePctL s.toList) with
  | none => 0
  | some v => if 1 < v then v / 100 else v

/-- Embeds the inline rate normalisation of `sync_ador_csvs` in
`003_restore_and_sync_rates.py`: same arithmetic as the web layer, but a parse
failure drops the whole row (the surrounding `except: continue`), hence the
`Option` result. -/
def parseRateSync (s : String) : Option ℚ :=
  (parseFloatQCore (removePctL s.toList)).map (fun v => if 1 < v then v / 100 else v)

/-- Strip one trailing `'%'` if present: the reading of rate strings used by
the specification's description of `parse_rate`. -/
def stripTrailingPctL (l : List Char) : List Char :=
  match l.getLast? with
  | some c => if c = '%' then l.dropLast else l
  | none => l

/-! ## Date parsing (`parse_date` of `004b_load_historical_county_rates.py`) -/

/-- Whether `pat` is a prefix of the second list (Boolean, by character). -/
def startsWithL : List Char → List Char → Bool
  | [], _ => true
  | _ :: _, [] => false
  | a :: as, b :: bs => a == b && startsWithL as bs

/-- Fuel-indexed worker for `removeSub` (structural, so concrete instances
reduce in the kernel). -/
def removeSubFuel (pat : List Char) : ℕ → List Char → List Char
  | 0, l => l
  | _ + 1, [] => []
  | n + 1, c :: rest =>
    if startsWithL pat (c :: rest) then removeSubFuel pat n (rest.drop (pat.length - 1))
    else c :: removeSubFuel pat n rest

/-- Python `s.replace(pat, "")` for a non-empty pattern: remove every
(left-to-right, non-overlapping) occurrence of `pat`. -/
def removeSub (pat l : List Char) : List Char :=
  removeSubFuel pat l.length l

/-- Split a character list on a separator character. -/
def splitOnChar (c : Char) : List Char → List (List Char)
  | [] => [[]]
  | x :: xs =>
    match splitOnChar c xs with
    | [] => [[x]]
    | h :: t => if x == c then [] :: h :: t else (x :: h) :: t

/-- Gregorian leap-year rule (as enforced by Python `datetime`). -/
def isLeap (y : ℕ) : Bool :=
  (y % 4 == 0 && y % 100 != 0) || (y % 400 == 0)

/-- Number of days in a month (for `datetime.strptime`'s validation). -/
def daysInMonth (y m : ℕ) : ℕ :=
  if m = 2 then (if isLeap y then 29 else 28)
  else if m = 4 ∨ m = 6 ∨ m = 9 ∨ m = 11 then 30
  else 31

/-- Validity of a (year, month, day) triple for Python `datetime.date`. -/
def validDate (y m d : ℕ) : Bool :=
  1 ≤ y && y ≤ 9999 && 1 ≤ m && m ≤ 12 && 1 ≤ d && d ≤ daysInMonth y m

/-- Zero-pad a numeral to two digits. -/
def pad2 (n : ℕ) : String :=
  if n < 10 then "0" ++ toString n else toString n

/-- Zero-pad a year to four digits. -/
def pad4 (n : ℕ) : String :=
  if n < 10 then "000" ++ toString n
  else if n < 100 then "00" ++ toString n
  else if n < 1000 then "0" ++ toString n
  else toString n

/-- ISO rendering `YYYY-MM-DD` (Python `date.isoformat()`). -/
def isoOf (y m d : ℕ) : String :=
  pad4 y ++ "-" ++ pad2 m ++ "-" ++ pad2 d

/-- Are the characters a plausible strptime numeric field of 1..`w` digits? -/
def numField (w : ℕ) (l : List Char) : Bool :=
  !l.isEmpty && l.all Char.isDigit && l.length ≤ w

/-- One `strptime` attempt with pattern month/day/year (separator `sep`). -/
def tryFormatMDY (sep : Char) (l : List Char) : Option String :=
  match splitOnChar sep l with
  | [m, d, y] =>
    if numField 2 m && numField 2 d && numField 4 y
        && validDate (digitsVal y) (digitsVal m) (digitsVal d) then
      some (isoOf (digitsVal y) (digitsVal m) (digitsVal d))
    else none
  | _ => none

/-- One `strptime` attempt with pattern year/month/day (separator `sep`). -/
def tryFormatYMD (sep : Char) (l : List Char) : Option String :=
  match splitOnChar sep l with
  | [y, m, d] =>
    if numField 4 y && numField 2 m && numField 2 d
        && validDate (digitsVal y) (digitsVal m) (digitsVal d) then
      some (isoOf (digitsVal y) (digitsVal m) (digitsVal d))
    else none
  | _ => none

/-- Embeds `parse_date` of `004b_load_historical_county_rates.py`: strip the
string, delete any `" 0:00"` and `" 12:00:00 AM"` time suffixes, then try the
formats `%m/%d/%Y`, `%Y-%m-%d`, `%m-%d-%Y`, `%Y/%m/%d` in order; the first
match wins, returning the ISO date; otherwise `none` with a warning. -/
def parse_date (s : String) : Option String :=
  if s = "" then none
  else
    let cs := removeSub " 12:00:00 AM".toList (removeSub " 0:00".toList (trimL s.toList))
    (((tryFormatMDY '/' cs).orElse (fun _ => tryFormatYMD '-' cs)).orElse
      (fun _ => tryFormatMDY '-' cs)).orElse (fun _ => tryFormatYMD '/' cs)

/-- Lexicographic strict comparison of character lists by code point. -/
def strLtL : List Char → List Char → Bool
  | [], [] => false
  | [], _ :: _ => true
  | _ :: _, [] => false
  | a :: as, b :: bs => if a < b then true else if b < a then false else strLtL as bs

/-- Python's `<` on strings: lexicographic by code point. -/
def pyStrLt (a b : String) : Bool :=
  strLtL a.toList b.toList

/-! ## Data model: CSV rows, parsed records, and the relational store -/

/-- One data row of an ADOR CSV, keyed by the header names the scripts read.
(The scripts tolerate a byte-order mark on the first header name; header
decoding is below the row-level abstraction used here.) -/
structure CsvRow where
  RegionCode : String
  RegionName : String
  BusinessCode : String
  BusinessCodesName : String
  TaxRate : String
  RateStartDate : String
deriving DecidableEq

/-- Normalized record staged by the loader scripts. -/
structure RateRec where
  region_code : String
  business_code : String
  rate : ℚ
deriving DecidableEq

/-- Normalized record of the historical merge in
`003_restore_and_sync_rates.py` (`parse_historical_csv`). -/
structure HistRec where
  effective_date : String
  region_code : String
  region_name : String
  business_code : String
  business_name : String
  rate : ℚ
deriving DecidableEq

/-- Normalized record of `parse_csv_content` in `app.py` (the constant
`state_rate`/`county_rate` 0.0 fields and the uploader are inlined where the
record is written to the store). -/
structure AppRateRec where
  region_code : String
  region_name : String
  business_code : String
  business_name : String
  city_rate : ℚ
deriving DecidableEq

/-- A row of the `jurisdictions` table. -/
structure Jurisdiction where
  id : ℕ
  level : String
  state_code : String
  city_code : Option String
  region_code : Option String
  city_name : Option String
  county_name : Option String
deriving DecidableEq

/-- A row of the `rate_versions` table (`loaded_at` is not modelled: no claim
mentions it). -/
structure RateVersion where
  id : ℕ
  effective_date : String
deriving DecidableEq

/-- A row of the `rates` table (the surrogate row id is not modelled). -/
structure RateRow where
  rate_version_id : ℕ
  jurisdiction_id : ℕ
  business_code : String
  state_rate : ℚ
  county_rate : ℚ
  city_rate : ℚ
deriving DecidableEq

/-- The remote relational store, as the scripts see it. -/
structure Store where
  jurisdictions : List Jurisdiction
  rate_versions : List RateVersion
  rates : List RateRow
  business_codes : List (String × String)
deriving DecidableEq

/-- Maximum existing `rate_versions.id` (`order("id", desc=True).limit(1)`),
0 when the table is empty. -/
def maxVersionId (l : List RateVersion) : ℕ :=
  l.foldr (fun v m => max v.id m) 0

/-- Maximum existing `jurisdictions.id`, 0 when the table is empty. -/
def maxJurisdictionId (l : List Jurisdiction) : ℕ :=
  l.foldr (fun j m => max j.id m) 0

/-! ## `004_add_monthly_rates.py` (shared with `004b`) -/

/-- Display name chosen by `build_jurisdiction_cache`: `county_name` for
county-level rows, `city_name` otherwise (empty string for a null column). -/
def displayName (j : Jurisdiction) : String :=
  if j.level = "county" then j.county_name.getD "" else j.city_name.getD ""

/-- Embeds `build_jurisdiction_cache` of `004_add_monthly_rates.py` (and its
identical copy in `004b`): map every non-null, non-empty `city_code` and
`region_code` to `(id, level, display name)`; later rows overwrite earlier
cache entries as in a Python dict. -/
def jurisdictionCacheStep (cache : List (String × (ℕ × String × String)))
    (j : Jurisdiction) : List (String × (ℕ × String × String)) :=
  let cache :=
    match j.city_code with
    | some cc => if cc ≠ "" then dictInsert cache cc (j.id, j.level, displayName j) else cache
    | none => cache
  match j.region_code with
  | some rc => if rc ≠ "" then dictInsert cache rc (j.id, j.level, displayName j) else cache
  | none => cache

/-- The whole cache-building loop (see `jurisdictionCacheStep`). -/
def build_jurisdiction_cache (st : Store) : List (String × (ℕ × String × String)) :=
  st.jurisdictions.foldl jurisdictionCacheStep []

/-- Embeds `get_or_create_rate_version` of `004_add_monthly_rates.py` (and of
`004b`): return the id of an existing version with this exact effective date,
else insert a version with id = max existing id + 1 (1 on an empty table). -/
def get_or_create_rate_version (st : Store) (effective_date : String) : ℕ × Store :=
  match st.rate_versions.find? (fun v => v.effective_date = effective_date) with
  | some v => (v.id, st)
  | none =>
    let newId := maxVersionId st.rate_versions + 1
    (newId, { st with rate_versions := st.rate_versions ++ [⟨newId, effective_date⟩] })

/-- Embeds `ensure_business_code_exists` (the same helper in 003, 004, 004b):
upsert the code with the given description, falling back to
`"Business Code {code}"` when the description is empty. -/
def ensure_business_code_exists (st : Store) (code name : String) : Store :=
  let desc := if name = "" then "Business Code " ++ code else name
  { st with business_codes := dictInsert st.business_codes code desc }

/-- Embeds the CSV parsing loop of `add_rates_from_csv` in
`004_add_monthly_rates.py`: keep a `(region_code, business_code, rate)` record
exactly when the region code and business code are non-empty and the parsed
rate is positive. -/
def parse004Row (row : CsvRow) : Option RateRec :=
  let region := pyStrip row.RegionCode
  let business := pyStrip row.BusinessCode
  let rate := parse_rate (pyStrip row.TaxRate)
  if region ≠ "" ∧ business ≠ "" ∧ 0 < rate then
    some ⟨region, business, rate⟩
  else none

/-- The record sequence kept by the loop (see `parse004Row`). -/
def parse004 (rows : List CsvRow) : List RateRec :=
  rows.filterMap parse004Row

/-- The `(business_code, business_name)` pairs collected alongside
`parse004` (the script keeps them in a Python set; the embedding keeps
first-occurrence order, which fixes one of the set's possible iteration
orders). -/
def businessPairs004 (rows : List CsvRow) : List (String × String) :=
  (rows.filterMap (fun row =>
    (parse004Row row).map (fun rec => (rec.business_code, pyStrip row.BusinessCodesName)))).foldl
    (fun acc p => if p ∈ acc then acc else acc ++ [p]) []

/-- The `(jurisdiction_id, business_code)` pairs already stored for a version:
the duplicate-membership test of the reconciliation loops. -/
def existingKeys (st : Store) (vid : ℕ) : List (ℕ × String) :=
  (st.rates.filter (fun r => r.rate_version_id = vid)).map
    (fun r => (r.jurisdiction_id, r.business_code))

/-- Row construction of `add_rates_from_csv`/`load_rates_from_csv`: the rate
goes to `county_rate` for a county-level jurisdiction and to `city_rate`
otherwise; `state_rate` is always 0. -/
def routeRow (vid jid : ℕ) (level bcode : String) (rate : ℚ) : RateRow :=
  if level = "county" then ⟨vid, jid, bcode, 0, rate, 0⟩ else ⟨vid, jid, bcode, 0, 0, rate⟩

/-- Embeds the staging loop of `add_rates_from_csv` (identical in
`load_rates_from_csv` of `004b`): resolve each record through the jurisdiction
cache (unknown region codes count as missing), skip keys already present for
the version (counted), and otherwise stage a routed row.  Returns
(rows to insert, skipped duplicates, missing jurisdictions). -/
def stage004 (cache : List (String × (ℕ × String × String)))
    (ex : List (ℕ × String)) (vid : ℕ) : List RateRec → List RateRow × ℕ × ℕ
  | [] => ([], 0, 0)
  | r :: rs =>
    let rest := stage004 cache ex vid rs
    match dictGet cache r.region_code with
    | none => (rest.1, rest.2.1, rest.2.2 + 1)
    | some (jid, lvl, _) =>
      if (jid, r.business_code) ∈ ex then (rest.1, rest.2.1 + 1, rest.2.2)
      else (routeRow vid jid lvl r.business_code r.rate :: rest.1, rest.2.1, rest.2.2)

/-! ## Batched inserts (batch size 500) -/

/-- Worker for `chunks500`: structural recursion so concrete instances reduce. -/
def chunks500Aux {α : Type} : List α → List α → ℕ → List (List α)
  | [], acc, _ => if acc.isEmpty then [] else [acc.reverse]
  | x :: xs, acc, n =>
    if n ≤ 1 then (x :: acc).reverse :: chunks500Aux xs [] 500
    else chunks500Aux xs (x :: acc) (n - 1)

/-- Split a list into consecutive batches of 500 (the scripts'
`range(0, len(rates_to_insert), 500)` loop). -/
def chunks500 {α : Type} (l : List α) : List (List α) :=
  chunks500Aux l [] 500

/-- One batch step of `add_rates_from_csv` (and of `sync_ador_csvs`): a batch
the store rejects is counted as an error and dropped whole; an accepted batch
is appended to the `rates` table.  The store's rejections are modelled by the
predicate `bad` (a batch fails when it contains a bad row). -/
def insertStep004 (bad : RateRow → Bool) (acc : Store × ℕ × ℕ) (batch : List RateRow) :
    Store × ℕ × ℕ :=
  if batch.any bad then (acc.1, acc.2.1, acc.2.2 + 1)
  else ({ acc.1 with rates := acc.1.rates ++ batch }, acc.2.1 + batch.length, acc.2.2)

/-- The batch-insert loop of `add_rates_from_csv` in
`004_add_monthly_rates.py` (also the loop of `load_rates_from_csv` in `004b`
and of `sync_ador_csvs` in `003`): returns (store, inserted, failed batches). -/
def insertBatches004 (bad : RateRow → Bool) (st : Store) (toInsert : List RateRow) :
    Store × ℕ × ℕ :=
  (chunks500 toInsert).foldl (insertStep004 bad) (st, 0, 0)

/-- One per-row fallback insert of `merge_historical_rates`: an individually
rejected row is silently dropped, an accepted row is appended and counted. -/
def insertRowFB (bad : RateRow → Bool) (acc : Store × ℕ) (row : RateRow) : Store × ℕ :=
  if bad row then acc else ({ acc.1 with rates := acc.1.rates ++ [row] }, acc.2 + 1)

/-- One batch step of `merge_historical_rates` in
`003_restore_and_sync_rates.py`: on a batch rejection, fall back to inserting
the batch's rows one at a time. -/
def insertStepFB (bad : RateRow → Bool) (acc : Store × ℕ) (batch : List RateRow) :
    Store × ℕ :=
  if batch.any bad then batch.foldl (insertRowFB bad) acc
  else ({ acc.1 with rates := acc.1.rates ++ batch }, acc.2 + batch.length)

/-- The batch-insert loop of `merge_historical_rates` with its per-row
fallback: returns (store, inserted count). -/
def insertBatchesFallback (bad : RateRow → Bool) (st : Store) (toInsert : List RateRow) :
    Store × ℕ :=
  (chunks500 toInsert).foldl (insertStepFB bad) (st, 0)

/-- Counters reported by `add_rates_from_csv`. -/
structure Result004 where
  inserted : ℕ
  skipped : ℕ
  missing_jurisdiction : ℕ
  insert_errors : ℕ
deriving DecidableEq

/-- Embeds `add_rates_from_csv` of `004_add_monthly_rates.py` end to end:
build the jurisdiction cache, parse the rows, upsert the collected business
codes, get or create the rate version for the batch's effective date, fetch
the existing keys for that version, stage the non-duplicate resolvable
records, and insert them in batches of 500. -/
def add_rates_from_csv (bad : RateRow → Bool) (st : Store) (rows : List CsvRow)
    (effective_date : String) : Result004 × Store :=
  let cache := build_jurisdiction_cache st
  let records := parse004 rows
  let st1 := (businessPairs004 rows).foldl
    (fun s p => ensure_business_code_exists s p.1 p.2) st
  let vs := get_or_create_rate_version st1 effective_date
  let ex := existingKeys vs.2 vs.1
  let staged := stage004 cache ex vs.1 records
  let fin := insertBatches004 bad vs.2 staged.1
  (⟨fin.2.1, staged.2.1, staged.2.2, fin.2.2⟩, fin.1)

/-! ## `004b_load_historical_county_rates.py`: parse/group and load phases -/

/-- Python `defaultdict(list)` append: extend the value list of the (unique)
occurrence of the key in place, otherwise add a new singleton group. -/
def dictAppend {κ α : Type} [DecidableEq κ] : List (κ × List α) → κ → α → List (κ × List α)
  | [], k, v => [(k, [v])]
  | p :: t, k, v => if p.1 = k then (p.1, p.2 ++ [v]) :: t else p :: dictAppend t k v

/-- The hard-coded future cutoff of `load_rates_from_csv` in `004b`. -/
def cutoffDate : String := "2026-02-04"

/-- Output of the parse/group phase of `load_rates_from_csv` in `004b`. -/
structure Parse004bResult where
  groups : List (String × List RateRec)
  business_pairs : List (String × String)
  parse_errors : ℕ
  skipped_future : ℕ
deriving DecidableEq

/-- Embeds the CSV parsing loop of `load_rates_from_csv` in
`004b_load_historical_county_rates.py`: a row whose `RateStartDate` does not
parse counts as a parse error; a row whose parsed date is strictly after
2026-02-04 (Python string comparison on ISO dates) counts as skipped-future
and is not grouped; the remaining rows are kept when region code and business
code are non-empty and the parsed rate is positive, grouped by effective date.
The business-code pairs are kept in first-occurrence order (the script keeps
them in a Python set). -/
def parse004bStep (acc : Parse004bResult) (row : CsvRow) : Parse004bResult :=
  let region := pyStrip row.RegionCode
  let business := pyStrip row.BusinessCode
  let bname := pyStrip row.BusinessCodesName
  let rate := parse_rate (pyStrip row.TaxRate)
  match parse_date (pyStrip row.RateStartDate) with
  | none => { acc with parse_errors := acc.parse_errors + 1 }
  | some d =>
    if pyStrLt cutoffDate d then
      { acc with skipped_future := acc.skipped_future + 1 }
    else if region ≠ "" ∧ business ≠ "" ∧ 0 < rate then
      { acc with
          groups := dictAppend acc.groups d ⟨region, business, rate⟩,
          business_pairs :=
            if (business, bname) ∈ acc.business_pairs then acc.business_pairs
            else acc.business_pairs ++ [(business, bname)] }
    else acc

/-- The whole parsing loop (see `parse004bStep`). -/
def parse004b (rows : List CsvRow) : Parse004bResult :=
  rows.foldl parse004bStep ⟨[], [], 0, 0⟩

/-- Stable insertion of a date into an ascending list (worker for `sortStr`). -/
def insertSortedStr (x : String) : List String → List String
  | [] => [x]
  | y :: ys => if pyStrLt x y then x :: y :: ys else y :: insertSortedStr x ys

/-- Python `sorted` on a list of strings (ascending, code-point order). -/
def sortStr : List String → List String
  | [] => []
  | x :: xs => insertSortedStr x (sortStr xs)

/-- Embeds the load phase of `load_rates_from_csv` in `004b`: build the
jurisdiction cache once, upsert the collected business codes, then for each
effective date in ascending order get or create its rate version, fetch the
version's existing keys, stage the records (same staging code as `004`) and
insert them in batches of 500.  Returns (store, total inserted, total
skipped). -/
def load004bStep (bad : RateRow → Bool)
    (cache : List (String × (ℕ × String × String)))
    (groups : List (String × List RateRec)) (acc : Store × ℕ × ℕ) (d : String) :
    Store × ℕ × ℕ :=
  let recs := (dictGet groups d).getD []
  let vs := get_or_create_rate_version acc.1 d
  let ex := existingKeys vs.2 vs.1
  let staged := stage004 cache ex vs.1 recs
  let fin := insertBatches004 bad vs.2 staged.1
  (fin.1, acc.2.1 + fin.2.1, acc.2.2 + staged.2.1)

/-- The whole load phase (see `load004bStep`). -/
def load_rates_from_csv (bad : RateRow → Bool) (st : Store) (rows : List CsvRow) :
    Store × ℕ × ℕ :=
  let cache := build_jurisdiction_cache st
  let pr := parse004b rows
  let st1 := pr.business_pairs.foldl
    (fun s p => ensure_business_code_exists s p.1 p.2) st
  (sortStr (pr.groups.map Prod.fst)).foldl (load004bStep bad cache pr.groups) (st1, 0, 0)

/-! ## `003_restore_and_sync_rates.py` -/

/-- Embeds `build_jurisdiction_cache` of `003_restore_and_sync_rates.py`:
map every non-null, non-empty `city_code` and `region_code` to the
jurisdiction id only (this cache carries no level information). -/
def jurisdictionCacheStep003 (cache : List (String × ℕ)) (j : Jurisdiction) :
    List (String × ℕ) :=
  let cache :=
    match j.city_code with
    | some cc => if cc ≠ "" then dictInsert cache cc j.id else cache
    | none => cache
  match j.region_code with
  | some rc => if rc ≠ "" then dictInsert cache rc j.id else cache
  | none => cache

/-- The whole cache-building loop of `003` (see `jurisdictionCacheStep003`). -/
def build_jurisdiction_cache003 (st : Store) : List (String × ℕ) :=
  st.jurisdictions.foldl jurisdictionCacheStep003 []

/-- Embeds `get_or_create_rate_version` of `003` (the variant threading an
explicit next id): return an existing version id for the date unchanged, else
insert a version with id `next_id`.  Returns (version id, next id, store). -/
def get_or_create_rate_version_seq (st : Store) (effective_date : String) (next_id : ℕ) :
    ℕ × ℕ × Store :=
  match st.rate_versions.find? (fun v => v.effective_date = effective_date) with
  | some v => (v.id, next_id, st)
  | none =>
    (next_id, next_id + 1,
      { st with rate_versions := st.rate_versions ++ [⟨next_id, effective_date⟩] })

/-- Embeds `ensure_jurisdiction_exists` of `003`: a cached region code is
returned unchanged; otherwise a new city-level jurisdiction is inserted with
id = max existing id + 1 and the cache is extended.  Returns
(jurisdiction id, store, cache). -/
def ensure_jurisdiction_exists (st : Store) (cache : List (String × ℕ))
    (region_code region_name : String) : ℕ × Store × List (String × ℕ) :=
  match dictGet cache region_code with
  | some jid => (jid, st, cache)
  | none =>
    let newId := maxJurisdictionId st.jurisdictions + 1
    let nm := if region_name = "" then region_code ++ " City" else region_name
    let j : Jurisdiction := ⟨newId, "city", "AZ", some region_code, none, some nm, none⟩
    (newId, { st with jurisdictions := st.jurisdictions ++ [j] },
      dictInsert cache region_code newId)

/-- Embeds the CSV parsing loop of `sync_ador_csvs` in `003`: a row whose rate
string does not parse is dropped by the surrounding `except`; the remaining
rows are kept whenever region code and business code are non-empty - the rate
value is NOT tested, so zero-rate rows are kept. -/
def parseSyncRow (row : CsvRow) : Option RateRec :=
  let region := pyStrip row.RegionCode
  let business := pyStrip row.BusinessCode
  match parseRateSync (pyStrip row.TaxRate) with
  | none => none
  | some rate =>
    if region ≠ "" ∧ business ≠ "" then some ⟨region, business, rate⟩ else none

/-- The record sequence kept by the loop (see `parseSyncRow`). -/
def parseSync (rows : List CsvRow) : List RateRec :=
  rows.filterMap parseSyncRow

/-- Embeds the staging loop of `sync_ador_csvs` in `003`: resolve through the
id-only cache (`if not jurisdiction_id` also drops a cached id 0), skip keys
already present for the version, and otherwise stage the row with the rate
always in `city_rate` (`county_rate` and `state_rate` are the constant 0.0 in
the source). -/
def stageSync (cache : List (String × ℕ)) (ex : List (ℕ × String)) (vid : ℕ) :
    List RateRec → List RateRow
  | [] => []
  | r :: rs =>
    match dictGet cache r.region_code with
    | none => stageSync cache ex vid rs
    | some jid =>
      if jid = 0 then stageSync cache ex vid rs
      else if (jid, r.business_code) ∈ ex then stageSync cache ex vid rs
      else ⟨vid, jid, r.business_code, 0, 0, r.rate⟩ :: stageSync cache ex vid rs

/-- Natural key used by the historical merge's in-memory dedup in `main` of
`003`: `(effective_date, region_code, business_code)`. -/
def histKey (r : HistRec) : String × String × String :=
  (r.effective_date, r.region_code, r.business_code)

/-- Embeds the in-memory dedup of `main` in `003` over the concatenated
historical records: `seen[key] = r`, later entries overwriting earlier ones. -/
def dedupLWW (l : List HistRec) : List ((String × String × String) × HistRec) :=
  l.foldl (fun seen r => dictInsert seen (histKey r) r) []

/-- The `list(seen.values())` step of `main` in `003`. -/
def uniqueHistRecords (l : List HistRec) : List HistRec :=
  (dedupLWW l).map (·.2)

/-! ## `app.py` -/

/-- Embeds the row loop of `parse_csv_content` in `app.py`: keep a record
exactly when the region code and business code are non-empty and the
normalized rate is positive; the rate always lands in `city_rate`
("Put the rate in city_rate for now"). -/
def appParseRow (row : CsvRow) : Option AppRateRec :=
  let region := pyStrip row.RegionCode
  let rname := pyStrip row.RegionName
  let business := pyStrip row.BusinessCode
  let bname := pyStrip row.BusinessCodesName
  let rate := appRateDecimal (pyStrip row.TaxRate)
  if region ≠ "" ∧ business ≠ "" ∧ 0 < rate then
    some ⟨region, rname, business, bname, rate⟩
  else none

/-- The record sequence kept by the loop (see `appParseRow`). -/
def appParse (rows : List CsvRow) : List AppRateRec :=
  rows.filterMap appParseRow

/-- The business-code dict built by `upsert_business_codes` in `app.py`
(first occurrence of each code wins; empty descriptions fall back to
`"Business Code {code}"`). -/
def businessDictApp (l : List AppRateRec) : List (String × String) :=
  l.foldl (fun m r =>
    if r.business_code ≠ "" ∧ dictGet m r.business_code = none then
      m ++ [(r.business_code,
        if r.business_name = "" then "Business Code " ++ r.business_code
        else r.business_name)]
    else m) []

/-- Embeds `upsert_business_codes` of `app.py`: upsert each collected code,
returning the store and the processed count. -/
def upsert_business_codes (st : Store) (l : List AppRateRec) : Store × ℕ :=
  (businessDictApp l).foldl
    (fun acc p =>
      ({ acc.1 with business_codes := dictInsert acc.1.business_codes p.1 p.2 },
        acc.2 + 1))
    (st, 0)

/-- The region dict built by `upsert_jurisdictions` in `app.py` (first
occurrence of each region code wins; empty names fall back to
`"{code} City"`). -/
def jurisdictionsDictApp (l : List AppRateRec) : List (String × String) :=
  l.foldl (fun m r =>
    if r.region_code ≠ "" ∧ dictGet m r.region_code = none then
      m ++ [(r.region_code,
        if r.region_name = "" then r.region_code ++ " City" else r.region_name)]
    else m) []

/-- The unconditional update `upsert_jurisdictions` applies to an existing
jurisdiction matched by `city_code`: level is forced to `"city"`,
`county_name` is forced to null, and the city name is replaced. -/
def updateJurisdictionApp (st : Store) (jid : ℕ) (name : String) : Store :=
  { st with jurisdictions := st.jurisdictions.map (fun j =>
      if j.id = jid then
        { j with level := "city", state_code := "AZ", county_name := none,
                 city_name := some name }
      else j) }

/-- Embeds `upsert_jurisdictions` of `app.py`: for each collected region code,
update the first jurisdiction whose `city_code` equals the code (see
`updateJurisdictionApp`), or insert a new city-level jurisdiction with an id
counter starting at max existing id + 1.  Returns the store and the processed
count. -/
def upsert_jurisdictions (st : Store) (l : List AppRateRec) : Store × ℕ :=
  let d := jurisdictionsDictApp l
  let fin := d.foldl (fun (acc : Store × ℕ × ℕ) p =>
    match acc.1.jurisdictions.find? (fun j => j.city_code = some p.1) with
    | some ex => (updateJurisdictionApp acc.1 ex.id p.2, acc.2.1, acc.2.2 + 1)
    | none =>
      let j : Jurisdiction := ⟨acc.2.1, "city", "AZ", some p.1, none, some p.2, none⟩
      ({ acc.1 with jurisdictions := acc.1.jurisdictions ++ [j] },
        acc.2.1 + 1, acc.2.2 + 1))
    (st, maxJurisdictionId st.jurisdictions + 1, 0)
  (fin.1, fin.2.2)

/-- Embeds `create_rate_version` of `app.py`: unconditionally insert a new
rate version for the date - there is no lookup of an existing version.  The
store-assigned id is modelled as max existing id + 1. -/
def create_rate_version (st : Store) (effective_date : String) : ℕ × Store :=
  let newId := maxVersionId st.rate_versions + 1
  (newId, { st with rate_versions := st.rate_versions ++ [⟨newId, effective_date⟩] })

/-- Embeds `upsert_tax_rates` of `app.py`: look up each record's jurisdiction
by `city_code` (a miss is logged and skipped), then write a row with the rate
in `city_rate` under the given version.  The upsert carries no conflict key,
so it behaves as an insert of a fresh row.  Returns the store and the count. -/
def upsert_tax_rates (st : Store) (l : List AppRateRec) (vid : ℕ) : Store × ℕ :=
  l.foldl (fun acc r =>
    match acc.1.jurisdictions.find? (fun j => j.city_code = some r.region_code) with
    | none => acc
    | some j =>
      ({ acc.1 with rates := acc.1.rates ++ [⟨vid, j.id, r.business_code, 0, 0, r.city_rate⟩] },
        acc.2 + 1))
    (st, 0)

/-- The structured result of `parse_csv_content` in `app.py`. -/
structure AppResult where
  total_records : ℕ
  inserted_count : ℕ
  updated_count : ℕ
  business_codes_processed : ℕ
  jurisdictions_processed : ℕ
  errors : List String
  success : Bool
deriving DecidableEq

/-- Embeds `parse_csv_content` of `app.py`, the web layer's ingest: parse the
rows; when no valid record remains, the raised `RuntimeError` is caught and an
error result is returned with the store untouched; otherwise upsert business
codes and jurisdictions, create a fresh rate version for the supplied
effective date, and upsert the rate rows. -/
def parse_csv_content (st : Store) (rows : List CsvRow) (effective_date : String) :
    AppResult × Store :=
  let rates_data := appParse rows
  if rates_data.isEmpty then
    (⟨0, 0, 0, 0, 0, ["CSV parsing error: No valid rates data found in CSV"], false⟩, st)
  else
    let b := upsert_business_codes st rates_data
    let j := upsert_jurisdictions b.1 rates_data
    let v := create_rate_version j.1 effective_date
    let r := upsert_tax_rates v.2 rates_data v.1
    (⟨rates_data.length, r.2, 0, b.2, j.2, [], true⟩, r.1)

/-! ## Batched-insert lemmas and claim C8 -/

/-- The always-accepting store (every batch succeeds). -/
def neverBad : RateRow → Bool := fun _ => false

/-! ## Claim C2: one RateVersion per effective date -/

/-- The invariant "at most one RateVersion row per distinct effective_date". -/
def distinctEffectiveDates (st : Store) : Prop :=
  st.rate_versions.Pairwise (fun a b => a.effective_date ≠ b.effective_date)

/-- The fold of `get_or_create_rate_version` over a list of effective dates
(the reconciliation engines call it once per distinct date, in a loop). -/
def foldGetOrCreate (st : Store) (ds : List String) : Store :=
  ds.foldl (fun s d => (get_or_create_rate_version s d).2) st

/-! ## Claim C9: the 2026-02-04 future cutoff of `004b` -/

/-- Whether a CSV row trips the future-date skip of `load_rates_from_csv`:
its start date parses and is strictly after the cutoff. -/
def isFutureRow (row : CsvRow) : Bool :=
  match parse_date (pyStrip row.RateStartDate) with
  | some d => pyStrLt cutoffDate d
  | none => false

/-! ## Claim C1: idempotence of ingest -/

/-- Records of a parse that resolve through the jurisdiction cache. -/
def resolvableCount (cache : List (String × (ℕ × String × String)))
    (recs : List RateRec) : ℕ :=
  recs.countP (fun r => (dictGet cache r.region_code).isSome)

/-- A record's `(jurisdiction_id, business_code)` key is absent from the
version's existing keys (vacuously true for unresolvable records). -/
def keyFresh (cache : List (String × (ℕ × String × String)))
    (ex : List (ℕ × String)) (r : RateRec) : Bool :=
  match dictGet cache r.region_code with
  | none => true
  | some p => !(decide ((p.1, r.business_code) ∈ ex))

/-- The rows staged for insertion when no record is a duplicate. -/
def stagedOf (cache : List (String × (ℕ × String × String))) (vid : ℕ)
    (recs : List RateRec) : List RateRow :=
  recs.filterMap (fun r =>
    (dictGet cache r.region_code).map
      (fun p => routeRow vid p.1 p.2.1 r.business_code r.rate))

/-! ## Python-dict style association lists -/

theorem dictGet_nil {κ α : Type} [DecidableEq κ] (k : κ) :
    dictGet ([] : List (κ × α)) k = none := rfl

theorem dictGet_cons {κ α : Type} [DecidableEq κ] (p : κ × α) (t : List (κ × α)) (k : κ) :
    dictGet (p :: t) k = if p.1 = k then some p.2 else dictGet t k := by
  by_cases h : p.1 = k <;> simp [dictGet, List.find?, h]

theorem dictGet_dictInsert_self {κ α : Type} [DecidableEq κ]
    (l : List (κ × α)) (k : κ) (v : α) :
    dictGet (dictInsert l k v) k = some v := by
  induction l with
  | nil => simp [dictInsert, dictGet_cons]
  | cons p t ih =>
    by_cases h : p.1 = k
    · simp [dictInsert, h, dictGet_cons]
    · simp [dictInsert, h, dictGet_cons, ih]

theorem dictGet_dictInsert_ne {κ α : Type} [DecidableEq κ]
    (l : List (κ × α)) (k k' : κ) (v : α) (hne : k' ≠ k) :
    dictGet (dictInsert l k v) k' = dictGet l k' := by
  have h1 : ¬ k = k' := fun hh => hne hh.symm
  induction l with
  | nil => simp [dictInsert, dictGet_cons, dictGet_nil, h1]
  | cons p t ih =>
    by_cases h : p.1 = k
    · have h2 : ¬ p.1 = k' := by rw [h]; exact h1
      simp [dictInsert, h, dictGet_cons, h1, h2]
    · by_cases h' : p.1 = k' <;> simp [dictInsert, h, dictGet_cons, h', h1, hne, ih]

theorem mem_dictInsert {κ α : Type} [DecidableEq κ]
    (l : List (κ × α)) (k : κ) (v : α) (p : κ × α) :
    p ∈ dictInsert l k v → p = (k, v) ∨ p ∈ l := by
  induction l with
  | nil => intro h; simp [dictInsert] at h; left; exact h
  | cons q t ih =>
    by_cases h : q.1 = k
    · intro hp
      simp only [dictInsert, if_pos h, List.mem_cons] at hp
      rcases hp with h1 | h2
      · left; exact h1
      · right; exact List.mem_cons_of_mem _ h2
    · intro hp
      simp only [dictInsert, if_neg h, List.mem_cons] at hp
      rcases hp with h1 | h2
      · right; exact List.mem_cons.2 (Or.inl h1)
      · rcases ih h2 with h3 | h4
        · left; exact h3
        · right; exact List.mem_cons_of_mem _ h4

/-! ## Numeric parsing (Python `float`, `round`, `parse_rate`) -/

theorem pyRound6_exact (x : ℚ) (m : ℤ) (h : x * 1000000 = (m : ℚ)) : pyRound6 x = x := by
  have hx : x = (m : ℚ) / 1000000 := by
    field_simp at h ⊢
    linarith
  simp [pyRound6, roundHalfEven, h, hx]

/-! ## Claim C3: rate-string normalization -/

theorem removePct_eq_stripTrailing (l : List Char)
    (h : ¬ '%' ∈ stripTrailingPctL l) : removePctL l = stripTrailingPctL l := by
  unfold stripTrailingPctL at *
  cases hl : l.getLast? with
  | none =>
    have hnil : l = [] := List.getLast?_eq_none_iff.mp hl
    simp [hnil, removePctL]
  | some c =>
    rw [hl] at h
    replace h : ¬ '%' ∈ (if c = '%' then l.dropLast else l) := h
    show removePctL l = (if c = '%' then l.dropLast else l)
    by_cases hc : c = '%'
    · rw [if_pos hc]
      rw [if_pos hc] at h
      have hsplit : l.dropLast ++ [c] = l := List.dropLast_append_getLast? c hl
      have hfl : l.dropLast.filter (fun x => !(x == '%')) = l.dropLast := by
        rw [List.filter_eq_self]
        intro a ha
        have : a ≠ '%' := fun hh => h (hh ▸ ha)
        simpa using this
      rw [removePctL, ← hsplit, List.filter_append, hfl, hc]
      simp
    · rw [if_neg hc]
      rw [if_neg hc] at h
      rw [removePctL, List.filter_eq_self]
      intro a ha
      have : a ≠ '%' := fun hh => h (hh ▸ ha)
      simpa using this

/-- C3 counterexample: the claim's example "`\"0.5%\"` normalizes to 0.005" is
false on the code: `parse_rate` strips the percent sign, reads 0.5, and since
0.5 is not greater than 1 it is NOT divided by 100, so the result is 0.5 -
farther than 1e-6 from 0.005. -/
theorem C3_counterexample :
    parse_rate "0.5%" = 1/2 ∧ parse_rate "0.5%" ≠ 5/1000 ∧
      (1 : ℚ)/1000000 < |parse_rate "0.5%" - 5/1000| := by
  have h : floatRep (removePctL (trimL "0.5%".toList)) = some (false, 0, 5, 1) := by decide
  have hq : qOfRep (false, 0, 5, 1) = 1/2 := by norm_num [qOfRep]
  have hp : parse_rate "0.5%" = 1/2 := by
    rw [parse_rate, if_neg (by decide : ¬ "0.5%" = ""), parseFloatQCore, h,
      Option.map_some', hq]
    norm_num
    rw [pyRound6_exact _ 500000 (by norm_num)]
  refine ⟨hp, ?_, ?_⟩
  · rw [hp]; norm_num
  · rw [hp, show |(1 : ℚ)/2 - 5/1000| = 99/200 by rw [abs_of_pos] <;> norm_num]
    norm_num

/-- C3 (amended): for a rate string which, after stripping one trailing `%`,
is a decimal numeral containing no further `%`, `parse_rate` parses that
numeral, divides by 100 exactly when the value exceeds 1, and rounds to 6
decimal digits; `"2.4%"`, `"2.4"` and `"0.024"` all normalize to exactly
0.024, and `"0.5%"` is not divided (0.5 is not greater than 1) and normalizes
to 0.5 - not to 0.005 as the claim's example says. -/
theorem C3_amended (s : String) (v : ℚ)
    (h1 : parseFloatQCore (stripTrailingPctL (trimL s.toList)) = some v)
    (h2 : ¬ '%' ∈ stripTrailingPctL (trimL s.toList)) :
    parse_rate s = pyRound6 (if 1 < v then v / 100 else v) ∧
    parse_rate "2.4%" = 24/1000 ∧ parse_rate "2.4" = 24/1000 ∧
    parse_rate "0.024" = 24/1000 ∧ parse_rate "0.5%" = 1/2 := by
  have hgen : parse_rate s = pyRound6 (if 1 < v then v / 100 else v) := by
    have hne : ¬ s = "" := by
      intro hs
      rw [hs] at h1
      have hnone : parseFloatQCore (stripTrailingPctL (trimL "".toList)) = none := by decide
      rw [hnone] at h1
      exact Option.noConfusion h1
    rw [parse_rate, if_neg hne, removePct_eq_stripTrailing _ h2, h1]
  have h24 : parse_rate "2.4%" = 24/1000 := by
    have h : floatRep (removePctL (trimL "2.4%".toList)) = some (false, 2, 4, 1) := by decide
    have hq : qOfRep (false, 2, 4, 1) = 12/5 := by norm_num [qOfRep]
    rw [parse_rate, if_neg (by decide : ¬ "2.4%" = ""), parseFloatQCore, h,
      Option.map_some', hq]
    norm_num
    rw [pyRound6_exact _ 24000 (by norm_num)]
  have h24b : parse_rate "2.4" = 24/1000 := by
    have h : floatRep (removePctL (trimL "2.4".toList)) = some (false, 2, 4, 1) := by decide
    have hq : qOfRep (false, 2, 4, 1) = 12/5 := by norm_num [qOfRep]
    rw [parse_rate, if_neg (by decide : ¬ "2.4" = ""), parseFloatQCore, h,
      Option.map_some', hq]
    norm_num
    rw [pyRound6_exact _ 24000 (by norm_num)]
  have h24c : parse_rate "0.024" = 24/1000 := by
    have h : floatRep (removePctL (trimL "0.024".toList)) = some (false, 0, 24, 3) := by
      decide
    have hq : qOfRep (false, 0, 24, 3) = 3/125 := by norm_num [qOfRep]
    rw [parse_rate, if_neg (by decide : ¬ "0.024" = ""), parseFloatQCore, h,
      Option.map_some', hq]
    norm_num
    rw [pyRound6_exact _ 24000 (by norm_num)]
  have h05 : parse_rate "0.5%" = 1/2 := by
    have h : floatRep (removePctL (trimL "0.5%".toList)) = some (false, 0, 5, 1) := by decide
    have hq : qOfRep (false, 0, 5, 1) = 1/2 := by norm_num [qOfRep]
    rw [parse_rate, if_neg (by decide : ¬ "0.5%" = ""), parseFloatQCore, h,
      Option.map_some', hq]
    norm_num
    rw [pyRound6_exact _ 500000 (by norm_num)]
  exact ⟨hgen, h24, h24b, h24c, h05⟩

/-- Witness for `C3_amended` at the concrete rate string `"5.6%"`. -/
theorem C3_amended_witness :
    parseFloatQCore (stripTrailingPctL (trimL "5.6%".toList)) = some (28/5) ∧
    ¬ '%' ∈ stripTrailingPctL (trimL "5.6%".toList) ∧
    parse_rate "5.6%" = pyRound6 (if 1 < (28/5 : ℚ) then (28/5) / 100 else 28/5) := by
  have e0 : floatRep (stripTrailingPctL (trimL "5.6%".toList)) = some (false, 5, 6, 1) := by
    decide
  have e1 : parseFloatQCore (stripTrailingPctL (trimL "5.6%".toList)) = some (28/5) := by
    rw [parseFloatQCore, e0, Option.map_some']
    norm_num [qOfRep]
  have e2 : ¬ '%' ∈ stripTrailingPctL (trimL "5.6%".toList) := by decide
  exact ⟨e1, e2, (C3_amended "5.6%" (28/5) e1 e2).1⟩

/-! ## Claim C5: last-write-wins dedup of the historical merge -/

theorem mem_of_getLast?_eq_some {α : Type} {l : List α} {a : α}
    (h : l.getLast? = some a) : a ∈ l := by
  have h' : a ∈ l.getLast? := by rw [Option.mem_def, h]
  rcases List.mem_getLast?_eq_getLast h' with ⟨hne, rfl⟩
  exact List.getLast_mem hne

theorem mem_values_of_dictGet {κ α : Type} [DecidableEq κ]
    {m : List (κ × α)} {k : κ} {v : α} (h : dictGet m k = some v) :
    v ∈ m.map (·.2) := by
  unfold dictGet at h
  rcases Option.map_eq_some'.mp h with ⟨q, hq, hv⟩
  exact hv ▸ List.mem_map_of_mem _ (List.mem_of_find?_eq_some hq)

theorem dictGet_dedupLWW (l : List HistRec) (k : String × String × String) :
    dictGet (dedupLWW l) k = (l.filter (fun r => decide (histKey r = k))).getLast? := by
  induction l using List.reverseRecOn with
  | nil => rfl
  | append_singleton l x ih =>
    have hstep : dedupLWW (l ++ [x]) = dictInsert (dedupLWW l) (histKey x) x := by
      unfold dedupLWW
      rw [List.foldl_append]
      rfl
    rw [hstep, List.filter_append]
    by_cases hk : histKey x = k
    · rw [← hk, dictGet_dictInsert_self]
      simp [hk]
    · rw [dictGet_dictInsert_ne _ _ _ _ (fun hh => hk hh.symm)]
      simp [hk, ih]

/-- C5: when the same `(effective_date, region_code, business_code)` triple
occurs in two source files processed in sequence, the in-memory dedup of
`main` in `003_restore_and_sync_rates.py` (`seen[key] = r` over the
concatenated record lists) retains for that key the LAST record of the second
file - the later file's value replaces the earlier one before any database
write, and that record is what reaches the staged unique-record list. -/
theorem C5_lww (l₁ l₂ : List HistRec) (k : String × String × String) (r : HistRec)
    (h : (l₂.filter (fun x => decide (histKey x = k))).getLast? = some r) :
    dictGet (dedupLWW (l₁ ++ l₂)) k = some r ∧
      r ∈ uniqueHistRecords (l₁ ++ l₂) ∧ r ∈ l₂ := by
  have hne : l₂.filter (fun x => decide (histKey x = k)) ≠ [] := by
    intro hnil
    rw [hnil] at h
    exact Option.noConfusion h
  have hget : dictGet (dedupLWW (l₁ ++ l₂)) k = some r := by
    rw [dictGet_dedupLWW, List.filter_append, List.getLast?_append_of_ne_nil _ hne, h]
  refine ⟨hget, mem_values_of_dictGet hget, ?_⟩
  exact (List.mem_filter.mp (mem_of_getLast?_eq_some h)).1

/-- Witness for `C5_lww`: the specification's own example - both batches carry
(date 2025-01-01, region PX, code 011), with rates 0.024 and 0.025; after the
dedup the staged value is 0.025, the one from the second batch. -/
theorem C5_lww_witness :
    ((([⟨"2025-01-01", "PX", "Phoenix", "011", "Restaurants", (25 : ℚ)/1000⟩] :
        List HistRec).filter
          (fun x => decide (histKey x = ("2025-01-01", "PX", "011")))).getLast? =
      some ⟨"2025-01-01", "PX", "Phoenix", "011", "Restaurants", (25 : ℚ)/1000⟩) ∧
    dictGet (dedupLWW ([⟨"2025-01-01", "PX", "Phoenix", "011", "Restaurants", (24 : ℚ)/1000⟩] ++
        [⟨"2025-01-01", "PX", "Phoenix", "011", "Restaurants", (25 : ℚ)/1000⟩]))
      ("2025-01-01", "PX", "011") =
      some ⟨"2025-01-01", "PX", "Phoenix", "011", "Restaurants", (25 : ℚ)/1000⟩ := by
  have h : (([⟨"2025-01-01", "PX", "Phoenix", "011", "Restaurants", (25 : ℚ)/1000⟩] :
      List HistRec).filter
        (fun x => decide (histKey x = ("2025-01-01", "PX", "011")))).getLast? =
      some ⟨"2025-01-01", "PX", "Phoenix", "011", "Restaurants", (25 : ℚ)/1000⟩ := rfl
  exact ⟨h, (C5_lww _ _ _ _ h).1⟩

/-! ## Batched-insert lemmas and claim C8 -/

theorem chunks500Aux_join {α : Type} (l : List α) :
    ∀ (acc : List α) (n : ℕ), (chunks500Aux l acc n).join = acc.reverse ++ l := by
  induction l with
  | nil =>
    intro acc n
    by_cases h : acc.isEmpty
    · have : acc = [] := List.isEmpty_iff.mp h
      simp [chunks500Aux, h, this]
    · simp [chunks500Aux, h]
  | cons x xs ih =>
    intro acc n
    by_cases h : n ≤ 1
    · simp [chunks500Aux, h, ih]
    · simp [chunks500Aux, h, ih]

theorem chunks500_join {α : Type} (l : List α) : (chunks500 l).join = l := by
  simp [chunks500, chunks500Aux_join]

theorem mem_of_mem_chunks500 {α : Type} {l : List α} {c : List α} {r : α}
    (hc : c ∈ chunks500 l) (hr : r ∈ c) : r ∈ l := by
  rw [← chunks500_join l]
  exact List.mem_join.mpr ⟨c, hc, hr⟩

theorem insertRowFB_foldl (bad : RateRow → Bool) (c : List RateRow) :
    ∀ (s : Store) (i : ℕ),
      c.foldl (insertRowFB bad) (s, i) =
        ({ s with rates := s.rates ++ c.filter (fun r => !(bad r)) },
          i + (c.filter (fun r => !(bad r))).length) := by
  induction c with
  | nil => intro s i; simp
  | cons r c ih =>
    intro s i
    by_cases hb : bad r
    · simp [insertRowFB, hb, ih]
    · simp only [List.foldl_cons, insertRowFB, hb, if_neg, Bool.false_eq_true,
        not_false_eq_true, ih]
      simp [hb, List.filter_cons]
      omega

theorem insertStepFB_eq (bad : RateRow → Bool) (s : Store) (i : ℕ) (c : List RateRow) :
    insertStepFB bad (s, i) c =
      ({ s with rates := s.rates ++ c.filter (fun r => !(bad r)) },
        i + (c.filter (fun r => !(bad r))).length) := by
  unfold insertStepFB
  by_cases ha : c.any bad
  · rw [if_pos ha]
    exact insertRowFB_foldl bad c s i
  · rw [if_neg ha]
    have hall : ∀ r ∈ c, bad r = false := by
      intro r hr
      by_contra hcon
      exact ha (List.any_eq_true.mpr ⟨r, hr, by revert hcon; cases bad r <;> simp⟩)
    have hfe : c.filter (fun r => !(bad r)) = c := by
      rw [List.filter_eq_self]
      intro a hax
      rw [hall a hax]
      rfl
    rw [hfe]

theorem insertBatchesFallback_spec (bad : RateRow → Bool) (st : Store) (l : List RateRow) :
    insertBatchesFallback bad st l =
      ({ st with rates := st.rates ++ l.filter (fun r => !(bad r)) },
        (l.filter (fun r => !(bad r))).length) := by
  unfold insertBatchesFallback
  have main : ∀ (cs : List (List RateRow)) (s : Store) (i : ℕ),
      cs.foldl (insertStepFB bad) (s, i) =
        ({ s with rates := s.rates ++ cs.join.filter (fun r => !(bad r)) },
          i + (cs.join.filter (fun r => !(bad r))).length) := by
    intro cs
    induction cs with
    | nil => intro s i; simp
    | cons c cs ih =>
      intro s i
      rw [List.foldl_cons, insertStepFB_eq, ih]
      simp [List.filter_append, List.append_assoc]
      omega
  rw [main, chunks500_join]
  simp

theorem insertStep004_eq_ok (bad : RateRow → Bool) (s : Store) (i e : ℕ)
    (c : List RateRow) (hc : c.any bad = false) :
    insertStep004 bad (s, i, e) c = ({ s with rates := s.rates ++ c }, i + c.length, e) := by
  unfold insertStep004
  rw [hc]
  simp

theorem insertBatches004_foldl_ok (bad : RateRow → Bool) (cs : List (List RateRow))
    (h : ∀ c ∈ cs, ∀ r ∈ c, bad r = false) :
    ∀ (s : Store) (i e : ℕ),
      cs.foldl (insertStep004 bad) (s, i, e) =
        ({ s with rates := s.rates ++ cs.join }, i + cs.join.length, e) := by
  induction cs with
  | nil => intro s i e; simp
  | cons c cs ih =>
    intro s i e
    have hc : c.any bad = false := by
      rw [List.any_eq_false]
      intro r hr
      rw [h c (by simp) r hr]
      simp
    rw [List.foldl_cons, insertStep004_eq_ok bad s i e c hc,
      ih (fun c' hc' r hr => h c' (by simp [hc']) r hr)]
    simp [List.append_assoc]
    omega

theorem insertBatches004_neverBad (st : Store) (l : List RateRow) :
    insertBatches004 neverBad st l = ({ st with rates := st.rates ++ l }, l.length, 0) := by
  unfold insertBatches004
  rw [insertBatches004_foldl_ok neverBad _ (fun c _ r _ => rfl), chunks500_join]
  simp

theorem insertStep004_frame (bad : RateRow → Bool) (acc : Store × ℕ × ℕ)
    (c : List RateRow) :
    (insertStep004 bad acc c).1.jurisdictions = acc.1.jurisdictions ∧
    (insertStep004 bad acc c).1.rate_versions = acc.1.rate_versions ∧
    (insertStep004 bad acc c).1.business_codes = acc.1.business_codes := by
  unfold insertStep004
  by_cases hc : c.any bad <;> simp [hc]

theorem insertBatches004_foldl_frame (bad : RateRow → Bool) (cs : List (List RateRow)) :
    ∀ acc : Store × ℕ × ℕ,
      ((cs.foldl (insertStep004 bad) acc).1.jurisdictions = acc.1.jurisdictions ∧
       (cs.foldl (insertStep004 bad) acc).1.rate_versions = acc.1.rate_versions ∧
       (cs.foldl (insertStep004 bad) acc).1.business_codes = acc.1.business_codes) := by
  induction cs with
  | nil => intro acc; exact ⟨rfl, rfl, rfl⟩
  | cons c cs ih =>
    intro acc
    rw [List.foldl_cons]
    have h1 := insertStep004_frame bad acc c
    have h2 := ih (insertStep004 bad acc c)
    exact ⟨h2.1.trans h1.1, h2.2.1.trans h1.2.1, h2.2.2.trans h1.2.2⟩

/-- C8 counterexample: in `add_rates_from_csv` of `004_add_monthly_rates.py`
there is NO per-row fallback - when the store rejects a batch (here because it
contains one bad row), the whole batch is dropped: the acceptable row in the
same batch is not inserted either (0 rows inserted, 1 batch error), contrary
to the claim that the engine re-inserts the batch row by row. -/
theorem C8_counterexample :
    (insertBatches004 (fun r => r.business_code == "BAD") ⟨[], [], [], []⟩
        [⟨1, 1, "011", 0, 0, 1/100⟩, ⟨1, 2, "BAD", 0, 0, 1/100⟩]).1.rates = [] ∧
    (insertBatches004 (fun r => r.business_code == "BAD") ⟨[], [], [], []⟩
        [⟨1, 1, "011", 0, 0, 1/100⟩, ⟨1, 2, "BAD", 0, 0, 1/100⟩]).2.1 = 0 ∧
    (insertBatches004 (fun r => r.business_code == "BAD") ⟨[], [], [], []⟩
        [⟨1, 1, "011", 0, 0, 1/100⟩, ⟨1, 2, "BAD", 0, 0, 1/100⟩]).2.2 = 1 ∧
    ((⟨1, 1, "011", 0, 0, 1/100⟩ : RateRow).business_code == "BAD") = false :=
  ⟨rfl, rfl, rfl, rfl⟩

/-- C8 (amended): only `merge_historical_rates` of
`003_restore_and_sync_rates.py` has the claimed recovery - its insert loop
always persists exactly the individually acceptable rows: a batch the store
rejects falls back to row-at-a-time insertion, so a single bad row voids
nothing but itself; the batch loops of `add_rates_from_csv` (004) and
`sync_ador_csvs` (003) instead drop a rejected batch whole and continue. -/
theorem C8_amended (bad : RateRow → Bool) (st : Store) (l : List RateRow) :
    insertBatchesFallback bad st l =
      ({ st with rates := st.rates ++ l.filter (fun r => !(bad r)) },
        (l.filter (fun r => !(bad r))).length) :=
  insertBatchesFallback_spec bad st l

/-! ## Claim C2: one RateVersion per effective date -/

theorem get_or_create_existing (st : Store) (d : String) (v : RateVersion)
    (h : st.rate_versions.find? (fun x => x.effective_date = d) = some v) :
    get_or_create_rate_version st d = (v.id, st) := by
  unfold get_or_create_rate_version
  rw [h]

theorem get_or_create_new (st : Store) (d : String)
    (h : st.rate_versions.find? (fun x => x.effective_date = d) = none) :
    get_or_create_rate_version st d =
      (maxVersionId st.rate_versions + 1,
        { st with rate_versions :=
            st.rate_versions ++ [⟨maxVersionId st.rate_versions + 1, d⟩] }) := by
  unfold get_or_create_rate_version
  rw [h]

theorem get_or_create_frame (st : Store) (d : String) :
    (get_or_create_rate_version st d).2.rates = st.rates ∧
    (get_or_create_rate_version st d).2.jurisdictions = st.jurisdictions ∧
    (get_or_create_rate_version st d).2.business_codes = st.business_codes := by
  unfold get_or_create_rate_version
  cases h : st.rate_versions.find? (fun x => x.effective_date = d) <;>
    exact ⟨rfl, rfl, rfl⟩

theorem get_or_create_idem (st : Store) (d : String) :
    get_or_create_rate_version (get_or_create_rate_version st d).2 d =
      ((get_or_create_rate_version st d).1, (get_or_create_rate_version st d).2) := by
  cases h : st.rate_versions.find? (fun x => x.effective_date = d) with
  | some v =>
    rw [get_or_create_existing st d v h, get_or_create_existing st d v h]
  | none =>
    rw [get_or_create_new st d h]
    have hfind : (st.rate_versions ++
        [(⟨maxVersionId st.rate_versions + 1, d⟩ : RateVersion)]).find?
          (fun x => x.effective_date = d) =
        some ⟨maxVersionId st.rate_versions + 1, d⟩ := by
      rw [List.find?_append, h]
      simp [List.find?]
    exact get_or_create_existing
      { st with rate_versions :=
          st.rate_versions ++ [⟨maxVersionId st.rate_versions + 1, d⟩] }
      d ⟨maxVersionId st.rate_versions + 1, d⟩ hfind

/-- C2 counterexample: `create_rate_version` of `app.py` never looks up an
existing version - running the web ingest's version step twice for the same
effective date leaves two RateVersion rows with effective_date "2026-03-01"
in one store, violating at-most-one-version-per-date. -/
theorem C2_counterexample :
    ((create_rate_version
        (create_rate_version ⟨[], [], [], []⟩ "2026-03-01").2 "2026-03-01").2.rate_versions.map
          (fun v => v.effective_date)) = ["2026-03-01", "2026-03-01"] ∧
    ¬ distinctEffectiveDates
        (create_rate_version
          (create_rate_version ⟨[], [], [], []⟩ "2026-03-01").2 "2026-03-01").2 := by
  constructor
  · rfl
  · unfold distinctEffectiveDates
    decide

/-- C2 (amended): the script loaders' `get_or_create_rate_version`
(`004_add_monthly_rates.py`, `004b`, and the sequential variant in `003`)
does satisfy the claim: (1) when a version already exists for the exact date
it returns that version's id and leaves the store unchanged; (2) it preserves
at-most-one-version-per-date; (3) over a run of distinct, previously unseen
effective dates it creates exactly one version per distinct date.  The web
layer's `create_rate_version` (`app.py`) does not look up existing versions
and violates the claim (see the counterexample). -/
theorem C2_amended :
    (∀ (st : Store) (d : String) (v : RateVersion),
      st.rate_versions.find? (fun x => x.effective_date = d) = some v →
        get_or_create_rate_version st d = (v.id, st)) ∧
    (∀ (st : Store) (d : String),
      distinctEffectiveDates st → distinctEffectiveDates (get_or_create_rate_version st d).2) ∧
    (∀ (st : Store) (ds : List String),
      (∀ d ∈ ds, ∀ v ∈ st.rate_versions, v.effective_date ≠ d) → ds.Nodup →
        (foldGetOrCreate st ds).rate_versions.length =
          st.rate_versions.length + ds.length) := by
  refine ⟨get_or_create_existing, ?_, ?_⟩
  · intro st d hd
    cases h : st.rate_versions.find? (fun x => x.effective_date = d) with
    | some v => rw [get_or_create_existing st d v h]; exact hd
    | none =>
      rw [get_or_create_new st d h]
      unfold distinctEffectiveDates at *
      rw [List.pairwise_append]
      refine ⟨hd, by simp, ?_⟩
      intro a ha b hb
      simp only [List.mem_singleton] at hb
      subst hb
      have := List.find?_eq_none.mp h a ha
      simpa using this
  · intro st ds
    induction ds generalizing st with
    | nil => intro _ _; simp [foldGetOrCreate]
    | cons d ds ih =>
      intro hfresh hnodup
      have hfind : st.rate_versions.find? (fun x => x.effective_date = d) = none := by
        rw [List.find?_eq_none]
        intro x hx
        simpa using hfresh d (by simp) x hx
      have hstep : foldGetOrCreate st (d :: ds) =
          foldGetOrCreate
            { st with rate_versions :=
                st.rate_versions ++ [⟨maxVersionId st.rate_versions + 1, d⟩] } ds := by
        unfold foldGetOrCreate
        rw [List.foldl_cons, get_or_create_new st d hfind]
      rw [hstep, ih]
      · simp
        omega
      · intro d' hd' v hv
        rcases List.mem_append.mp hv with h1 | h2
        · exact hfresh d' (by simp [hd']) v h1
        · simp only [List.mem_singleton] at h2
          subst h2
          simp only []
          intro hcon
          rw [hcon] at hnodup
          exact (List.nodup_cons.mp hnodup).1 hd'
      · exact (List.nodup_cons.mp hnodup).2

/-- Witness for `C2_amended` part 3: two fresh distinct dates on a store that
already holds one version make exactly two new versions (3 rows total). -/
theorem C2_amended_witness :
    (∀ d ∈ ["2026-01-01", "2026-02-01"],
      ∀ v ∈ (⟨[], [⟨1, "2025-01-01"⟩], [], []⟩ : Store).rate_versions,
        v.effective_date ≠ d) ∧
    (["2026-01-01", "2026-02-01"] : List String).Nodup ∧
    (foldGetOrCreate ⟨[], [⟨1, "2025-01-01"⟩], [], []⟩
        ["2026-01-01", "2026-02-01"]).rate_versions.length = 3 := by
  refine ⟨by decide, by decide, ?_⟩
  have := C2_amended.2.2 ⟨[], [⟨1, "2025-01-01"⟩], [], []⟩ ["2026-01-01", "2026-02-01"]
    (by decide) (by decide)
  simpa using this

/-! ## Claim C7: silent dropping of no-rate rows -/

theorem parse004Row_some (row : CsvRow) (rec : RateRec)
    (h : parse004Row row = some rec) :
    rec.region_code ≠ "" ∧ rec.business_code ≠ "" ∧ 0 < rec.rate := by
  unfold parse004Row at h
  by_cases hc : pyStrip row.RegionCode ≠ "" ∧ pyStrip row.BusinessCode ≠ "" ∧
      0 < parse_rate (pyStrip row.TaxRate)
  · rw [if_pos hc] at h
    cases h
    exact hc
  · rw [if_neg hc] at h
    exact Option.noConfusion h

theorem appParseRow_some (row : CsvRow) (rec : AppRateRec)
    (h : appParseRow row = some rec) :
    rec.region_code ≠ "" ∧ rec.business_code ≠ "" ∧ 0 < rec.city_rate := by
  unfold appParseRow at h
  by_cases hc : pyStrip row.RegionCode ≠ "" ∧ pyStrip row.BusinessCode ≠ "" ∧
      0 < appRateDecimal (pyStrip row.TaxRate)
  · rw [if_pos hc] at h
    cases h
    exact hc
  · rw [if_neg hc] at h
    exact Option.noConfusion h

theorem parse004Row_none (row : CsvRow)
    (h : ¬ (pyStrip row.RegionCode ≠ "" ∧ pyStrip row.BusinessCode ≠ "" ∧
        0 < parse_rate (pyStrip row.TaxRate))) :
    parse004Row row = none := by
  unfold parse004Row
  rw [if_neg h]

/-- C7 counterexample: the parsing loop of `sync_ador_csvs` in
`003_restore_and_sync_rates.py` tests only that the region and business codes
are non-empty - a row whose rate resolves to 0 is NOT dropped and, when its
region code is cached, the zero-rate record is staged for insertion,
contradicting the claim that every parser drops non-positive-rate rows. -/
theorem C7_counterexample :
    parseSync [⟨"PX", "Phoenix", "011", "Restaurants", "0", ""⟩] =
      [⟨"PX", "011", 0⟩] ∧
    ¬ (0 : ℚ) < 0 ∧
    stageSync (build_jurisdiction_cache003
        ⟨[⟨3, "city", "AZ", some "PX", none, some "Phoenix", none⟩], [], [], []⟩) [] 1
      (parseSync [⟨"PX", "Phoenix", "011", "Restaurants", "0", ""⟩]) =
      [⟨1, 3, "011", 0, 0, 0⟩] := by
  have hv : parseRateSync (pyStrip "0") = some 0 := by
    have h0 : floatRep (removePctL (pyStrip "0").toList) = some (false, 0, 0, 0) := by
      decide
    rw [parseRateSync, parseFloatQCore, h0, Option.map_some']
    norm_num [qOfRep]
  have hp : parseSync [⟨"PX", "Phoenix", "011", "Restaurants", "0", ""⟩] =
      [⟨"PX", "011", (0 : ℚ)⟩] := by
    unfold parseSync
    simp only [List.filterMap_cons, List.filterMap_nil]
    unfold parseSyncRow
    dsimp only
    rw [hv]
    dsimp only
    rw [if_pos (⟨by decide, by decide⟩ : ¬ pyStrip "PX" = "" ∧ ¬ pyStrip "011" = "")]
    rw [show pyStrip "PX" = "PX" from by decide,
      show pyStrip "011" = "011" from by decide]
  refine ⟨hp, by norm_num, ?_⟩
  rw [hp]
  rfl

/-- C7 (amended): the claimed filter does hold for the parsers of
`add_rates_from_csv` (004), `load_rates_from_csv` (004b, same condition) and
the web layer's `parse_csv_content`: every record they emit has a non-empty
region code, a non-empty business code, and a positive rate, and a row
failing the test is dropped without an error.  It does NOT hold for
`sync_ador_csvs` in 003 (zero-rate records are kept and staged - see the
counterexample) nor for `001_load_historical_rates.py`, which never tests the
business code or the rate value. -/
theorem C7_amended :
    (∀ (rows : List CsvRow) (rec : RateRec), rec ∈ parse004 rows →
      rec.region_code ≠ "" ∧ rec.business_code ≠ "" ∧ 0 < rec.rate) ∧
    (∀ (rows : List CsvRow) (rec : AppRateRec), rec ∈ appParse rows →
      rec.region_code ≠ "" ∧ rec.business_code ≠ "" ∧ 0 < rec.city_rate) ∧
    (∀ row : CsvRow,
      ¬ (pyStrip row.RegionCode ≠ "" ∧ pyStrip row.BusinessCode ≠ "" ∧
          0 < parse_rate (pyStrip row.TaxRate)) →
      parse004 [row] = []) := by
  refine ⟨?_, ?_, ?_⟩
  · intro rows rec h
    rcases List.mem_filterMap.mp h with ⟨row, _, hf⟩
    exact parse004Row_some row rec hf
  · intro rows rec h
    rcases List.mem_filterMap.mp h with ⟨row, _, hf⟩
    exact appParseRow_some row rec hf
  · intro row h
    unfold parse004
    rw [List.filterMap_cons, parse004Row_none row h]
    rfl

/-- Witness for `C7_amended`: a concrete kept record satisfies the filter, and
a concrete empty-region row is dropped. -/
theorem C7_amended_witness :
    ((⟨"PX", "011", 24/1000⟩ : RateRec) ∈
      parse004 [⟨"PX", "Phoenix", "011", "Restaurants", "2.4%", ""⟩] →
      ("PX" : String) ≠ "" ∧ ("011" : String) ≠ "" ∧ (0 : ℚ) < 24/1000) ∧
    (¬ (pyStrip "" ≠ "" ∧ pyStrip "011" ≠ "" ∧ 0 < parse_rate (pyStrip "2.4%")) →
      parse004 [⟨"", "Phoenix", "011", "Restaurants", "2.4%", ""⟩] = []) := by
  constructor
  · intro hmem
    exact C7_amended.1 [⟨"PX", "Phoenix", "011", "Restaurants", "2.4%", ""⟩]
      ⟨"PX", "011", 24/1000⟩ hmem
  · intro h
    exact C7_amended.2.2 ⟨"", "Phoenix", "011", "Restaurants", "2.4%", ""⟩ h

/-! ## Claim C4: routing of the rate by jurisdiction level -/

theorem routeRow_county (vid jid : ℕ) (bcode : String) (rate : ℚ) :
    routeRow vid jid "county" bcode rate = ⟨vid, jid, bcode, 0, rate, 0⟩ := by
  unfold routeRow
  rw [if_pos rfl]

theorem routeRow_city (vid jid : ℕ) (lvl bcode : String) (rate : ℚ) (h : lvl ≠ "county") :
    routeRow vid jid lvl bcode rate = ⟨vid, jid, bcode, 0, 0, rate⟩ := by
  unfold routeRow
  rw [if_neg h]

/-- C4 counterexample: `sync_ador_csvs` in `003_restore_and_sync_rates.py`
resolves jurisdictions through an id-only cache and always writes the rate to
`city_rate` - for a record resolved to the county-level jurisdiction MAR
(Maricopa), the staged row has `county_rate = 0` and `city_rate` equal to the
rate, contradicting the claimed county routing. -/
theorem C4_counterexample :
    (⟨[⟨7, "county", "AZ", none, some "MAR", none, some "Maricopa"⟩], [], [], []⟩ :
        Store).jurisdictions.map (fun j => (j.id, j.level)) = [(7, "county")] ∧
    build_jurisdiction_cache003
        ⟨[⟨7, "county", "AZ", none, some "MAR", none, some "Maricopa"⟩], [], [], []⟩ =
      [("MAR", 7)] ∧
    stageSync (build_jurisdiction_cache003
        ⟨[⟨7, "county", "AZ", none, some "MAR", none, some "Maricopa"⟩], [], [], []⟩)
        [] 1 [⟨"MAR", "011", 5/1000⟩] =
      [⟨1, 7, "011", 0, 0, 5/1000⟩] ∧
    ¬ ((⟨1, 7, "011", 0, 0, 5/1000⟩ : RateRow).county_rate = 5/1000 ∧
        (⟨1, 7, "011", 0, 0, 5/1000⟩ : RateRow).city_rate = 0) := by
  refine ⟨rfl, rfl, rfl, ?_⟩
  rintro ⟨h1, -⟩
  norm_num at h1

/-- C4 (amended): the level-aware staging loop shared by
`add_rates_from_csv` (004) and `load_rates_from_csv` (004b) does route by
level: every staged row carries `state_rate = 0` and comes from a record
resolved through the cache, with the rate in `county_rate` (and `city_rate`
0) for a county-level jurisdiction and in `city_rate` (and `county_rate` 0)
otherwise.  The staging of `sync_ador_csvs` in 003 and of the web layer
instead put every rate in `city_rate` (see the counterexample). -/
theorem C4_amended (cache : List (String × (ℕ × String × String)))
    (ex : List (ℕ × String)) (vid : ℕ) (recs : List RateRec) (row : RateRow)
    (h : row ∈ (stage004 cache ex vid recs).1) :
    row.state_rate = 0 ∧ row.rate_version_id = vid ∧
    ∃ rec ∈ recs, ∃ jid lvl nm,
      dictGet cache rec.region_code = some (jid, lvl, nm) ∧
      (jid, rec.business_code) ∉ ex ∧
      row.jurisdiction_id = jid ∧ row.business_code = rec.business_code ∧
      ((lvl = "county" ∧ row.county_rate = rec.rate ∧ row.city_rate = 0) ∨
       (lvl ≠ "county" ∧ row.city_rate = rec.rate ∧ row.county_rate = 0)) := by
  induction recs with
  | nil =>
    unfold stage004 at h
    exact absurd h (List.not_mem_nil row)
  | cons r rs ih =>
    unfold stage004 at h
    cases hget : dictGet cache r.region_code with
    | none =>
      rw [hget] at h
      dsimp only at h
      rcases ih h with ⟨h0, hv, rec, hrec, rest⟩
      exact ⟨h0, hv, rec, List.mem_cons_of_mem _ hrec, rest⟩
    | some p =>
      obtain ⟨jid, lvl, nm⟩ := p
      rw [hget] at h
      dsimp only at h
      by_cases hex : (jid, r.business_code) ∈ ex
      · rw [if_pos hex] at h
        rcases ih h with ⟨h0, hv, rec, hrec, rest⟩
        exact ⟨h0, hv, rec, List.mem_cons_of_mem _ hrec, rest⟩
      · rw [if_neg hex] at h
        rcases List.mem_cons.mp h with hhead | htail
        · subst hhead
          by_cases hlvl : lvl = "county"
          · subst hlvl
            rw [routeRow_county]
            exact ⟨rfl, rfl, r, List.mem_cons_self r rs, jid, "county", nm, hget, hex,
              rfl, rfl, Or.inl ⟨rfl, rfl, rfl⟩⟩
          · rw [routeRow_city _ _ _ _ _ hlvl]
            exact ⟨rfl, rfl, r, List.mem_cons_self r rs, jid, lvl, nm, hget, hex,
              rfl, rfl, Or.inr ⟨hlvl, rfl, rfl⟩⟩
        · rcases ih htail with ⟨h0, hv, rec, hrec, rest⟩
          exact ⟨h0, hv, rec, List.mem_cons_of_mem _ hrec, rest⟩

/-- Witness for `C4_amended`: one county record staged through the 004 cache
shape lands in `county_rate`. -/
theorem C4_amended_witness :
    ((⟨1, 7, "011", 0, 5/1000, 0⟩ : RateRow) ∈
      (stage004 [("MAR", (7, "county", "Maricopa"))] [] 1 [⟨"MAR", "011", 5/1000⟩]).1) ∧
    ((⟨1, 7, "011", 0, 5/1000, 0⟩ : RateRow).state_rate = 0 ∧
      (⟨1, 7, "011", 0, 5/1000, 0⟩ : RateRow).rate_version_id = 1 ∧
      ∃ rec ∈ [(⟨"MAR", "011", 5/1000⟩ : RateRec)], ∃ jid lvl nm,
        dictGet [("MAR", (7, "county", "Maricopa"))] rec.region_code = some (jid, lvl, nm) ∧
        (jid, rec.business_code) ∉ ([] : List (ℕ × String)) ∧
        (⟨1, 7, "011", 0, 5/1000, 0⟩ : RateRow).jurisdiction_id = jid ∧
        (⟨1, 7, "011", 0, 5/1000, 0⟩ : RateRow).business_code = rec.business_code ∧
        ((lvl = "county" ∧ (⟨1, 7, "011", 0, 5/1000, 0⟩ : RateRow).county_rate = rec.rate ∧
            (⟨1, 7, "011", 0, 5/1000, 0⟩ : RateRow).city_rate = 0) ∨
         (lvl ≠ "county" ∧ (⟨1, 7, "011", 0, 5/1000, 0⟩ : RateRow).city_rate = rec.rate ∧
            (⟨1, 7, "011", 0, 5/1000, 0⟩ : RateRow).county_rate = 0))) := by
  have hmem : (⟨1, 7, "011", 0, 5/1000, 0⟩ : RateRow) ∈
      (stage004 [("MAR", (7, "county", "Maricopa"))] [] 1 [⟨"MAR", "011", 5/1000⟩]).1 := by
    show (⟨1, 7, "011", 0, 5/1000, 0⟩ : RateRow) ∈ [(⟨1, 7, "011", 0, 5/1000, 0⟩ : RateRow)]
    exact List.mem_singleton.mpr rfl
  exact ⟨hmem, C4_amended _ _ _ _ _ hmem⟩

/-! ## Claim C6: immutability of a jurisdiction's level -/

theorem jurisdictionCacheStep_mem (cache : List (String × (ℕ × String × String)))
    (j : Jurisdiction) (p : String × (ℕ × String × String))
    (hp : p ∈ jurisdictionCacheStep cache j) :
    p ∈ cache ∨ p.2 = (j.id, j.level, displayName j) := by
  unfold jurisdictionCacheStep at hp
  have inner : ∀ (c : List (String × (ℕ × String × String))),
      p ∈ (match j.region_code with
        | some rc => if rc ≠ "" then dictInsert c rc (j.id, j.level, displayName j) else c
        | none => c) →
      p ∈ c ∨ p.2 = (j.id, j.level, displayName j) := by
    intro c hc
    cases hr : j.region_code with
    | none => rw [hr] at hc; exact Or.inl hc
    | some rc =>
      rw [hr] at hc
      dsimp only at hc
      by_cases hne : rc ≠ ""
      · rw [if_pos hne] at hc
        rcases mem_dictInsert _ _ _ _ hc with h1 | h2
        · exact Or.inr (by rw [h1])
        · exact Or.inl h2
      · rw [if_neg hne] at hc; exact Or.inl hc
  rcases inner _ hp with h1 | h2
  · cases hcc : j.city_code with
    | none => rw [hcc] at h1; exact Or.inl h1
    | some cc =>
      rw [hcc] at h1
      dsimp only at h1
      by_cases hne : cc ≠ ""
      · rw [if_pos hne] at h1
        rcases mem_dictInsert _ _ _ _ h1 with h3 | h4
        · exact Or.inr (by rw [h3])
        · exact Or.inl h4
      · rw [if_neg hne] at h1; exact Or.inl h1
  · exact Or.inr h2

theorem build_cache_fold (js : List Jurisdiction) :
    ∀ (cache₀ : List (String × (ℕ × String × String))) (p : String × (ℕ × String × String)),
      p ∈ js.foldl jurisdictionCacheStep cache₀ →
      p ∈ cache₀ ∨ ∃ j ∈ js, p.2 = (j.id, j.level, displayName j) := by
  induction js with
  | nil => intro _ p hp; exact Or.inl hp
  | cons j js ih =>
    intro cache₀ p hp
    rw [List.foldl_cons] at hp
    rcases ih _ p hp with h1 | ⟨j', hj', he⟩
    · rcases jurisdictionCacheStep_mem _ _ _ h1 with h2 | h3
      · exact Or.inl h2
      · exact Or.inr ⟨j, by simp, h3⟩
    · exact Or.inr ⟨j', by simp [hj'], he⟩

theorem ensure_bc_fold_frame (ps : List (String × String)) :
    ∀ s : Store,
      ((ps.foldl (fun s p => ensure_business_code_exists s p.1 p.2) s).jurisdictions =
        s.jurisdictions ∧
      (ps.foldl (fun s p => ensure_business_code_exists s p.1 p.2) s).rate_versions =
        s.rate_versions ∧
      (ps.foldl (fun s p => ensure_business_code_exists s p.1 p.2) s).rates = s.rates) := by
  induction ps with
  | nil => intro s; exact ⟨rfl, rfl, rfl⟩
  | cons p ps ih =>
    intro s
    rw [List.foldl_cons]
    have h1 := ih (ensure_business_code_exists s p.1 p.2)
    exact ⟨h1.1.trans rfl, h1.2.1.trans rfl, h1.2.2.trans rfl⟩

theorem insertBatches004_frame (bad : RateRow → Bool) (s : Store) (l : List RateRow) :
    (insertBatches004 bad s l).1.jurisdictions = s.jurisdictions ∧
    (insertBatches004 bad s l).1.rate_versions = s.rate_versions ∧
    (insertBatches004 bad s l).1.business_codes = s.business_codes := by
  unfold insertBatches004
  exact insertBatches004_foldl_frame bad _ (s, 0, 0)

theorem add_rates_jurisdictions_frame (bad : RateRow → Bool) (st : Store)
    (rows : List CsvRow) (d : String) :
    (add_rates_from_csv bad st rows d).2.jurisdictions = st.jurisdictions := by
  unfold add_rates_from_csv
  dsimp only
  rw [(insertBatches004_frame bad _ _).1, (get_or_create_frame _ d).2.1,
    (ensure_bc_fold_frame _ st).1]

/-- C6 counterexample: `upsert_jurisdictions` in `app.py` runs an
unconditional update on every existing jurisdiction matched by `city_code`,
forcing `level` to `"city"` (and `county_name` to null): on a store holding a
county-level jurisdiction with city_code "MAR", one web ingest of a "MAR"
record flips that jurisdiction's stored level from "county" to "city" - the
level is re-derived from new data, contradicting the claim. -/
theorem C6_counterexample :
    (⟨[⟨1, "county", "AZ", some "MAR", some "MAR", none, some "Maricopa"⟩], [], [], []⟩ :
      Store).jurisdictions.map (fun j => (j.id, j.level)) = [(1, "county")] ∧
    ((upsert_jurisdictions
        ⟨[⟨1, "county", "AZ", some "MAR", some "MAR", none, some "Maricopa"⟩], [], [], []⟩
        [⟨"MAR", "Maricopa", "011", "Restaurants", 5/1000⟩]).1.jurisdictions.map
          (fun j => (j.id, j.level))) = [(1, "city")] :=
  ⟨rfl, rfl⟩

/-- C6 (amended): resolution through the script loaders is level-preserving:
(1) every jurisdiction cache entry of `build_jurisdiction_cache`
(004/004b) returns exactly a stored jurisdiction's `(id, level)`;
(2) `add_rates_from_csv` (004) never modifies the jurisdictions table at all;
(3) `ensure_jurisdiction_exists` (003) keeps every existing jurisdiction row
unchanged and returns a cached region code's id with no store write.  The web
layer's `upsert_jurisdictions` (`app.py`) violates the claim by overwriting
the level of existing jurisdictions with `"city"` (see the counterexample). -/
theorem C6_amended :
    (∀ (st : Store) (code : String) (jid : ℕ) (lvl nm : String),
      dictGet (build_jurisdiction_cache st) code = some (jid, lvl, nm) →
      ∃ j ∈ st.jurisdictions, j.id = jid ∧ j.level = lvl) ∧
    (∀ (bad : RateRow → Bool) (st : Store) (rows : List CsvRow) (d : String),
      (add_rates_from_csv bad st rows d).2.jurisdictions = st.jurisdictions) ∧
    (∀ (st : Store) (cache : List (String × ℕ)) (rc rn : String),
      (∀ j ∈ st.jurisdictions,
        j ∈ (ensure_jurisdiction_exists st cache rc rn).2.1.jurisdictions) ∧
      (∀ jid, dictGet cache rc = some jid →
        ensure_jurisdiction_exists st cache rc rn = (jid, st, cache))) := by
  refine ⟨?_, add_rates_jurisdictions_frame, ?_⟩
  · intro st code jid lvl nm h
    unfold dictGet at h
    rcases Option.map_eq_some'.mp h with ⟨q, hq, hv⟩
    have hqmem := List.mem_of_find?_eq_some hq
    unfold build_jurisdiction_cache at hqmem
    rcases build_cache_fold st.jurisdictions [] q hqmem with h1 | ⟨j, hj, he⟩
    · exact absurd h1 (List.not_mem_nil q)
    · rw [he] at hv
      simp only [Prod.mk.injEq] at hv
      exact ⟨j, hj, hv.1, hv.2.1⟩
  · intro st cache rc rn
    cases hget : dictGet cache rc with
    | some jid =>
      constructor
      · intro j hj
        unfold ensure_jurisdiction_exists
        simp only [hget]
        exact hj
      · intro jid' hjid'
        cases hjid'
        unfold ensure_jurisdiction_exists
        simp only [hget]
    | none =>
      constructor
      · intro j hj
        unfold ensure_jurisdiction_exists
        simp only [hget]
        exact List.mem_append_left _ hj
      · intro jid' hjid'
        exact Option.noConfusion hjid'

/-- Witness for `C6_amended` part 1: the cache entry for the county region
code MAR carries exactly the stored `(id, level)` pair. -/
theorem C6_amended_witness :
    dictGet (build_jurisdiction_cache
        ⟨[⟨7, "county", "AZ", none, some "MAR", none, some "Maricopa"⟩], [], [], []⟩)
      "MAR" = some (7, "county", "Maricopa") ∧
    ∃ j ∈ (⟨[⟨7, "county", "AZ", none, some "MAR", none, some "Maricopa"⟩], [], [], []⟩ :
      Store).jurisdictions, j.id = 7 ∧ j.level = "county" := by
  have h : dictGet (build_jurisdiction_cache
      ⟨[⟨7, "county", "AZ", none, some "MAR", none, some "Maricopa"⟩], [], [], []⟩)
      "MAR" = some (7, "county", "Maricopa") := by decide
  exact ⟨h, C6_amended.1 _ "MAR" 7 "county" "Maricopa" h⟩

/-! ## Claim C10: web ingest with zero valid records -/

/-- C10: when the uploaded CSV yields no valid record (no row with non-empty
region code, non-empty business code and positive rate), `parse_csv_content`
in `app.py` raises and catches `RuntimeError` and returns
`success = false`, `total_records = 0`, `inserted_count = 0` and exactly one
error message, leaving the store untouched: no RateVersion is created and no
rate row is written. -/
theorem C10_empty_ingest (st : Store) (rows : List CsvRow) (d : String)
    (h : appParse rows = []) :
    (parse_csv_content st rows d).1.total_records = 0 ∧
    (parse_csv_content st rows d).1.inserted_count = 0 ∧
    (parse_csv_content st rows d).1.errors.length = 1 ∧
    (parse_csv_content st rows d).1.success = false ∧
    (parse_csv_content st rows d).2 = st := by
  unfold parse_csv_content
  rw [h]
  exact ⟨rfl, rfl, rfl, rfl, rfl⟩

/-- Witness for `C10_empty_ingest`: a CSV whose single row has rate "0" has no
valid record; the web ingest reports the failure and writes nothing. -/
theorem C10_empty_ingest_witness :
    appParse [⟨"PX", "Phoenix", "011", "Restaurants", "0", ""⟩] = [] ∧
    (parse_csv_content ⟨[], [], [], []⟩
        [⟨"PX", "Phoenix", "011", "Restaurants", "0", ""⟩] "2026-03-01").1.success = false ∧
    (parse_csv_content ⟨[], [], [], []⟩
        [⟨"PX", "Phoenix", "011", "Restaurants", "0", ""⟩] "2026-03-01").2 =
      ⟨[], [], [], []⟩ := by
  have hv : appRateDecimal (pyStrip "0") = 0 := by
    have h0 : floatRep (removePctL (pyStrip "0").toList) = some (false, 0, 0, 0) := by
      decide
    rw [appRateDecimal, parseFloatQCore, h0, Option.map_some']
    norm_num [qOfRep]
  have hp : appParse [⟨"PX", "Phoenix", "011", "Restaurants", "0", ""⟩] = [] := by
    unfold appParse
    rw [List.filterMap_cons, List.filterMap_nil]
    have hrow : appParseRow ⟨"PX", "Phoenix", "011", "Restaurants", "0", ""⟩ = none := by
      unfold appParseRow
      dsimp only
      rw [hv]
      rw [if_neg]
      rintro ⟨-, -, hpos⟩
      exact absurd hpos (by norm_num)
    rw [hrow]
  have hmain := C10_empty_ingest ⟨[], [], [], []⟩
    [⟨"PX", "Phoenix", "011", "Restaurants", "0", ""⟩] "2026-03-01" hp
  exact ⟨hp, hmain.2.2.2.1, hmain.2.2.2.2⟩

/-! ## Claim C9: the 2026-02-04 future cutoff of `004b` -/

theorem dictAppend_keys {κ α : Type} [DecidableEq κ]
    (m : List (κ × List α)) (k : κ) (v : α) (p : κ × List α)
    (hp : p ∈ dictAppend m k v) : p.1 = k ∨ ∃ q ∈ m, p.1 = q.1 := by
  induction m with
  | nil =>
    simp only [dictAppend, List.mem_singleton] at hp
    exact Or.inl (by rw [hp])
  | cons q t ih =>
    by_cases h : q.1 = k
    · simp only [dictAppend, if_pos h, List.mem_cons] at hp
      rcases hp with h1 | h2
      · exact Or.inr ⟨q, by simp, by rw [h1]⟩
      · exact Or.inr ⟨p, by simp [h2], rfl⟩
    · simp only [dictAppend, if_neg h, List.mem_cons] at hp
      rcases hp with h1 | h2
      · exact Or.inr ⟨q, by simp, by rw [h1]⟩
      · rcases ih h2 with h3 | ⟨q', hq', he⟩
        · exact Or.inl h3
        · exact Or.inr ⟨q', by simp [hq'], he⟩

theorem parse004bStep_skipped (acc : Parse004bResult) (row : CsvRow) :
    (parse004bStep acc row).skipped_future =
      acc.skipped_future + (if isFutureRow row then 1 else 0) := by
  unfold parse004bStep isFutureRow
  cases h : parse_date (pyStrip row.RateStartDate) with
  | none => simp
  | some d =>
    dsimp only
    cases hlt : pyStrLt cutoffDate d with
    | true => simp
    | false =>
      simp only [Bool.false_eq_true, if_false]
      split <;> simp

theorem parse004bStep_groups (acc : Parse004bResult) (row : CsvRow)
    (hinv : ∀ p ∈ acc.groups, pyStrLt cutoffDate p.1 = false) :
    ∀ p ∈ (parse004bStep acc row).groups, pyStrLt cutoffDate p.1 = false := by
  unfold parse004bStep
  cases h : parse_date (pyStrip row.RateStartDate) with
  | none => simpa using hinv
  | some d =>
    dsimp only
    cases hlt : pyStrLt cutoffDate d with
    | true => simpa using hinv
    | false =>
      simp only [Bool.false_eq_true, if_false]
      split
      · intro p hp
        rcases dictAppend_keys _ _ _ _ hp with h1 | ⟨q, hq, he⟩
        · rw [h1]; exact hlt
        · rw [he]; exact hinv q hq
      · exact hinv

theorem parse004b_foldl_skipped (rows : List CsvRow) :
    ∀ acc : Parse004bResult,
      (rows.foldl parse004bStep acc).skipped_future =
        acc.skipped_future + rows.countP isFutureRow := by
  induction rows with
  | nil => intro acc; simp
  | cons row rows ih =>
    intro acc
    rw [List.foldl_cons, ih, parse004bStep_skipped, List.countP_cons]
    by_cases h : isFutureRow row <;> simp [h] <;> omega

theorem parse004b_foldl_groups (rows : List CsvRow) :
    ∀ acc : Parse004bResult,
      (∀ p ∈ acc.groups, pyStrLt cutoffDate p.1 = false) →
      ∀ p ∈ (rows.foldl parse004bStep acc).groups, pyStrLt cutoffDate p.1 = false := by
  induction rows with
  | nil => intro acc h; exact h
  | cons row rows ih =>
    intro acc h
    rw [List.foldl_cons]
    exact ih _ (parse004bStep_groups acc row h)

theorem mem_insertSortedStr (x d : String) (l : List String)
    (h : d ∈ insertSortedStr x l) : d = x ∨ d ∈ l := by
  induction l with
  | nil => simpa [insertSortedStr] using h
  | cons y ys ih =>
    unfold insertSortedStr at h
    by_cases hlt : pyStrLt x y
    · rw [if_pos hlt] at h
      rcases List.mem_cons.mp h with h1 | h2
      · exact Or.inl h1
      · exact Or.inr h2
    · rw [if_neg hlt] at h
      rcases List.mem_cons.mp h with h1 | h2
      · exact Or.inr (by simp [h1])
      · rcases ih h2 with h3 | h4
        · exact Or.inl h3
        · exact Or.inr (List.mem_cons_of_mem _ h4)

theorem mem_sortStr (d : String) (l : List String) (h : d ∈ sortStr l) : d ∈ l := by
  induction l with
  | nil => simpa [sortStr] using h
  | cons x xs ih =>
    unfold sortStr at h
    rcases mem_insertSortedStr x d _ h with h1 | h2
    · simp [h1]
    · exact List.mem_cons_of_mem _ (ih h2)

theorem get_or_create_versions_sub (st : Store) (d : String) (v : RateVersion)
    (hv : v ∈ (get_or_create_rate_version st d).2.rate_versions) :
    v ∈ st.rate_versions ∨ v.effective_date = d := by
  unfold get_or_create_rate_version at hv
  cases h : st.rate_versions.find? (fun x => x.effective_date = d) with
  | some w => rw [h] at hv; exact Or.inl hv
  | none =>
    rw [h] at hv
    dsimp only at hv
    rcases List.mem_append.mp hv with h1 | h2
    · exact Or.inl h1
    · simp only [List.mem_singleton] at h2
      rw [h2]
      exact Or.inr rfl

theorem load004bStep_versions (bad : RateRow → Bool)
    (cache : List (String × (ℕ × String × String)))
    (groups : List (String × List RateRec)) (acc : Store × ℕ × ℕ) (d : String)
    (v : RateVersion) (hv : v ∈ (load004bStep bad cache groups acc d).1.rate_versions) :
    v ∈ acc.1.rate_versions ∨ v.effective_date = d := by
  unfold load004bStep at hv
  dsimp only at hv
  rw [(insertBatches004_frame bad _ _).2.1] at hv
  exact get_or_create_versions_sub acc.1 d v hv

theorem load004b_foldl_versions (bad : RateRow → Bool)
    (cache : List (String × (ℕ × String × String)))
    (groups : List (String × List RateRec)) (ds : List String) :
    ∀ (acc : Store × ℕ × ℕ) (v : RateVersion),
      v ∈ (ds.foldl (load004bStep bad cache groups) acc).1.rate_versions →
      v ∈ acc.1.rate_versions ∨ ∃ d ∈ ds, v.effective_date = d := by
  induction ds with
  | nil => intro acc v hv; exact Or.inl hv
  | cons d ds ih =>
    intro acc v hv
    rw [List.foldl_cons] at hv
    rcases ih _ v hv with h1 | ⟨d', hd', he⟩
    · rcases load004bStep_versions bad cache groups acc d v h1 with h2 | h3
      · exact Or.inl h2
      · exact Or.inr ⟨d, by simp, h3⟩
    · exact Or.inr ⟨d', by simp [hd'], he⟩

/-- C9: `load_rates_from_csv` of `004b_load_historical_county_rates.py`
silently excludes every record whose parsed effective date is strictly after
2026-02-04 (Python string comparison on ISO dates): (1) every group of the
parse phase carries a date at or before the cutoff, so future records are
never grouped or staged; (2) the skipped-future counter counts exactly the
rows whose parsed date is after the cutoff, regardless of the rows' other
fields; (3) every rate version present after the load either pre-existed or
has an effective date at or before the cutoff - future dates are never
versioned. -/
theorem C9_future_cutoff (rows : List CsvRow) :
    (∀ p ∈ (parse004b rows).groups, pyStrLt cutoffDate p.1 = false) ∧
    (parse004b rows).skipped_future = rows.countP isFutureRow ∧
    (∀ (bad : RateRow → Bool) (st : Store) (v : RateVersion),
      v ∈ (load_rates_from_csv bad st rows).1.rate_versions →
      v ∈ st.rate_versions ∨ pyStrLt cutoffDate v.effective_date = false) := by
  refine ⟨?_, ?_, ?_⟩
  · exact parse004b_foldl_groups rows ⟨[], [], 0, 0⟩ (by intro p hp; cases hp)
  · have := parse004b_foldl_skipped rows ⟨[], [], 0, 0⟩
    simpa [parse004b] using this
  · intro bad st v hv
    unfold load_rates_from_csv at hv
    dsimp only at hv
    rcases load004b_foldl_versions bad _ _ _ _ v hv with h1 | ⟨d, hd, he⟩
    · rw [(ensure_bc_fold_frame _ st).2.1] at h1
      exact Or.inl h1
    · right
      rw [he]
      have hd' := mem_sortStr d _ hd
      rcases List.mem_map.mp hd' with ⟨p, hp, hpe⟩
      rw [← hpe]
      exact (parse004b_foldl_groups rows ⟨[], [], 0, 0⟩ (by intro q hq; cases hq)) p hp

/-- Witness for `C9_future_cutoff`: one future-dated row (start date
3/01/2026) is counted as skipped-future, leaves no group, and the load
touches no rate version - a pre-existing version survives untouched. -/
theorem C9_future_cutoff_witness :
    ((⟨1, "2020-01-01"⟩ : RateVersion) ∈
      (load_rates_from_csv neverBad ⟨[], [⟨1, "2020-01-01"⟩], [], []⟩
        [⟨"PX", "Phoenix", "011", "Restaurants", "2.4%", "3/01/2026"⟩]).1.rate_versions) ∧
    ((⟨1, "2020-01-01"⟩ : RateVersion) ∈
        (⟨[], [⟨1, "2020-01-01"⟩], [], []⟩ : Store).rate_versions ∨
      pyStrLt cutoffDate "2020-01-01" = false) ∧
    (parse004b [⟨"PX", "Phoenix", "011", "Restaurants", "2.4%", "3/01/2026"⟩]).skipped_future =
      1 := by
  have hmem : (⟨1, "2020-01-01"⟩ : RateVersion) ∈
      (load_rates_from_csv neverBad ⟨[], [⟨1, "2020-01-01"⟩], [], []⟩
        [⟨"PX", "Phoenix", "011", "Restaurants", "2.4%", "3/01/2026"⟩]).1.rate_versions := by
    decide
  refine ⟨hmem, ?_, ?_⟩
  · exact (C9_future_cutoff _).2.2 neverBad ⟨[], [⟨1, "2020-01-01"⟩], [], []⟩
      ⟨1, "2020-01-01"⟩ hmem
  · have h2 := (C9_future_cutoff
      [⟨"PX", "Phoenix", "011", "Restaurants", "2.4%", "3/01/2026"⟩]).2.1
    rw [h2]
    decide

/-! ## Claim C1: idempotence of ingest -/

theorem routeRow_fields (vid jid : ℕ) (lvl bcode : String) (rate : ℚ) :
    (routeRow vid jid lvl bcode rate).rate_version_id = vid ∧
    (routeRow vid jid lvl bcode rate).jurisdiction_id = jid ∧
    (routeRow vid jid lvl bcode rate).business_code = bcode := by
  unfold routeRow
  by_cases h : lvl = "county" <;> simp [h]

theorem stagedOf_length (cache : List (String × (ℕ × String × String))) (vid : ℕ)
    (recs : List RateRec) :
    (stagedOf cache vid recs).length = resolvableCount cache recs := by
  induction recs with
  | nil => rfl
  | cons r rs ih =>
    unfold stagedOf resolvableCount at *
    rw [List.filterMap_cons, List.countP_cons]
    cases h : dictGet cache r.region_code with
    | none => simp [h, ih]
    | some p => simp [h, ih]

theorem stage004_fresh (cache : List (String × (ℕ × String × String)))
    (ex : List (ℕ × String)) (vid : ℕ) (recs : List RateRec)
    (h : ∀ r ∈ recs, keyFresh cache ex r = true) :
    (stage004 cache ex vid recs).1 = stagedOf cache vid recs ∧
    (stage004 cache ex vid recs).2.1 = 0 ∧
    (stage004 cache ex vid recs).2.2 =
      recs.countP (fun r => (dictGet cache r.region_code).isNone) := by
  induction recs with
  | nil => exact ⟨rfl, rfl, rfl⟩
  | cons r rs ih =>
    have hr := h r (by simp)
    have htail := ih (fun r' hr' => h r' (by simp [hr']))
    unfold stage004
    unfold stagedOf
    rw [List.filterMap_cons, List.countP_cons]
    cases hget : dictGet cache r.region_code with
    | none =>
      dsimp only
      rw [htail.1, htail.2.1, htail.2.2]
      refine ⟨rfl, rfl, ?_⟩
      simp [hget]
    | some p =>
      unfold keyFresh at hr
      rw [hget] at hr
      dsimp only at hr
      have hnot : (p.1, r.business_code) ∉ ex := by
        intro hmem
        rw [decide_eq_true hmem] at hr
        exact Bool.noConfusion hr
      obtain ⟨jid, lvl, nm⟩ := p
      dsimp only
      rw [if_neg hnot]
      rw [htail.1, htail.2.1, htail.2.2]
      refine ⟨rfl, rfl, ?_⟩
      simp [hget]

theorem stage004_dup (cache : List (String × (ℕ × String × String)))
    (ex : List (ℕ × String)) (vid : ℕ) (recs : List RateRec)
    (h : ∀ r ∈ recs, ∀ p, dictGet cache r.region_code = some p →
      (p.1, r.business_code) ∈ ex) :
    (stage004 cache ex vid recs).1 = [] ∧
    (stage004 cache ex vid recs).2.1 = resolvableCount cache recs := by
  induction recs with
  | nil => exact ⟨rfl, rfl⟩
  | cons r rs ih =>
    have htail := ih (fun r' hr' p hp => h r' (by simp [hr']) p hp)
    unfold stage004
    cases hget : dictGet cache r.region_code with
    | none =>
      dsimp only
      refine ⟨htail.1, ?_⟩
      rw [htail.2]
      unfold resolvableCount
      rw [List.countP_cons]
      simp [hget]
    | some p =>
      have hmem := h r (by simp) p hget
      obtain ⟨jid, lvl, nm⟩ := p
      dsimp only
      rw [if_pos hmem]
      refine ⟨htail.1, ?_⟩
      dsimp only
      rw [htail.2]
      unfold resolvableCount
      rw [List.countP_cons]
      simp [hget]

theorem build_cache_of_jur_eq (st st' : Store) (h : st'.jurisdictions = st.jurisdictions) :
    build_jurisdiction_cache st' = build_jurisdiction_cache st := by
  unfold build_jurisdiction_cache
  rw [h]

theorem existingKeys_of_rates_eq (st st' : Store) (v : ℕ) (h : st'.rates = st.rates) :
    existingKeys st' v = existingKeys st v := by
  unfold existingKeys
  rw [h]

theorem get_or_create_of_versions_eq (st st' : Store) (d : String)
    (h : st'.rate_versions = st.rate_versions) :
    (get_or_create_rate_version st' d).1 = (get_or_create_rate_version st d).1 ∧
    (get_or_create_rate_version st' d).2.rate_versions =
      (get_or_create_rate_version st d).2.rate_versions := by
  unfold get_or_create_rate_version
  rw [h]
  cases hf : st.rate_versions.find? (fun x => x.effective_date = d) with
  | some v => exact ⟨rfl, h⟩
  | none =>
    constructor
    · rfl
    · dsimp only

theorem get_or_create_find_after (st : Store) (d : String) :
    ((get_or_create_rate_version st d).2.rate_versions.find?
      (fun x => x.effective_date = d)).map (·.id) =
      some (get_or_create_rate_version st d).1 := by
  cases hf : st.rate_versions.find? (fun x => x.effective_date = d) with
  | some v =>
    rw [get_or_create_existing st d v hf]
    rw [hf]
    rfl
  | none =>
    rw [get_or_create_new st d hf]
    dsimp only
    rw [List.find?_append, hf]
    simp [List.find?]

theorem get_or_create_second (st st2 : Store) (d : String)
    (h : st2.rate_versions = (get_or_create_rate_version st d).2.rate_versions) :
    get_or_create_rate_version st2 d = ((get_or_create_rate_version st d).1, st2) := by
  have hfind := get_or_create_find_after st d
  rcases Option.map_eq_some'.mp hfind with ⟨w, hw, hid⟩
  have : st2.rate_versions.find? (fun x => x.effective_date = d) = some w := by
    rw [h]
    exact hw
  rw [get_or_create_existing st2 d w this, hid]

theorem stagedOf_keys (cache : List (String × (ℕ × String × String))) (vid : ℕ)
    (recs : List RateRec) (r : RateRec) (hr : r ∈ recs) (p : ℕ × String × String)
    (hget : dictGet cache r.region_code = some p) :
    (p.1, r.business_code) ∈ (stagedOf cache vid recs).map
      (fun row => (row.jurisdiction_id, row.business_code)) := by
  induction recs with
  | nil => cases hr
  | cons r' rs ih =>
    unfold stagedOf
    rw [List.filterMap_cons]
    rcases List.mem_cons.mp hr with hhead | htail
    · subst hhead
      rw [hget, Option.map_some']
      rw [List.map_cons]
      have hf := routeRow_fields vid p.1 p.2.1 r.business_code r.rate
      rw [List.mem_cons]
      left
      rw [hf.2.1, hf.2.2]
    · cases hg : dictGet cache r'.region_code with
      | none => exact ih htail
      | some q =>
        rw [Option.map_some', List.map_cons, List.mem_cons]
        right
        exact ih htail

theorem stagedOf_version (cache : List (String × (ℕ × String × String))) (vid : ℕ)
    (recs : List RateRec) : ∀ row ∈ stagedOf cache vid recs, row.rate_version_id = vid := by
  intro row hrow
  unfold stagedOf at hrow
  rcases List.mem_filterMap.mp hrow with ⟨r, _, hf⟩
  rcases Option.map_eq_some'.mp hf with ⟨p, _, hrw⟩
  rw [← hrw]
  exact (routeRow_fields vid p.1 p.2.1 r.business_code r.rate).1

theorem existingKeys_append_mem (st : Store) (b : List RateRow) (v : ℕ)
    (hb : ∀ row ∈ b, row.rate_version_id = v) (key : ℕ × String)
    (hkey : key ∈ b.map (fun row => (row.jurisdiction_id, row.business_code)))
    (st' : Store) (hst' : st'.rates = st.rates ++ b) :
    key ∈ existingKeys st' v := by
  unfold existingKeys
  rw [hst', List.filter_append]
  have hfb : b.filter (fun r => r.rate_version_id = v) = b := by
    rw [List.filter_eq_self]
    intro row hrow
    exact decide_eq_true (hb row hrow)
  rw [hfb, List.map_append]
  exact List.mem_append_right _ hkey

set_option maxHeartbeats 1000000 in

theorem add_rates_spec_fresh (st : Store) (rows : List CsvRow) (d : String)
    (hfresh : ∀ r ∈ parse004 rows,
      keyFresh (build_jurisdiction_cache st)
        (existingKeys st (get_or_create_rate_version st d).1) r = true) :
    (add_rates_from_csv neverBad st rows d).1.inserted =
      resolvableCount (build_jurisdiction_cache st) (parse004 rows) ∧
    (add_rates_from_csv neverBad st rows d).1.skipped = 0 ∧
    (add_rates_from_csv neverBad st rows d).2.rates =
      st.rates ++ stagedOf (build_jurisdiction_cache st)
        (get_or_create_rate_version st d).1 (parse004 rows) ∧
    (add_rates_from_csv neverBad st rows d).2.jurisdictions = st.jurisdictions ∧
    (add_rates_from_csv neverBad st rows d).2.rate_versions =
      (get_or_create_rate_version st d).2.rate_versions := by
  have hB := ensure_bc_fold_frame (businessPairs004 rows) st
  have hgv := get_or_create_of_versions_eq st
    ((businessPairs004 rows).foldl (fun s p => ensure_business_code_exists s p.1 p.2) st)
    d hB.2.1
  have hgf := get_or_create_frame
    ((businessPairs004 rows).foldl (fun s p => ensure_business_code_exists s p.1 p.2) st) d
  have hrates : (get_or_create_rate_version
      ((businessPairs004 rows).foldl (fun s p => ensure_business_code_exists s p.1 p.2) st)
      d).2.rates = st.rates := hgf.1.trans hB.2.2
  have hjur : (get_or_create_rate_version
      ((businessPairs004 rows).foldl (fun s p => ensure_business_code_exists s p.1 p.2) st)
      d).2.jurisdictions = st.jurisdictions := hgf.2.1.trans hB.1
  have hex : existingKeys (get_or_create_rate_version
      ((businessPairs004 rows).foldl (fun s p => ensure_business_code_exists s p.1 p.2) st)
      d).2 (get_or_create_rate_version
      ((businessPairs004 rows).foldl (fun s p => ensure_business_code_exists s p.1 p.2) st)
      d).1 = existingKeys st (get_or_create_rate_version st d).1 := by
    rw [hgv.1]
    exact existingKeys_of_rates_eq st _ _ hrates
  have hfresh' : ∀ r ∈ parse004 rows,
      keyFresh (build_jurisdiction_cache st)
        (existingKeys (get_or_create_rate_version
          ((businessPairs004 rows).foldl (fun s p => ensure_business_code_exists s p.1 p.2) st)
          d).2 (get_or_create_rate_version
          ((businessPairs004 rows).foldl (fun s p => ensure_business_code_exists s p.1 p.2) st)
          d).1) r = true := by
    rw [hex]
    exact hfresh
  have hs := stage004_fresh (build_jurisdiction_cache st)
    (existingKeys (get_or_create_rate_version
      ((businessPairs004 rows).foldl (fun s p => ensure_business_code_exists s p.1 p.2) st)
      d).2 (get_or_create_rate_version
      ((businessPairs004 rows).foldl (fun s p => ensure_business_code_exists s p.1 p.2) st)
      d).1)
    (get_or_create_rate_version
      ((businessPairs004 rows).foldl (fun s p => ensure_business_code_exists s p.1 p.2) st)
      d).1 (parse004 rows) hfresh'
  unfold add_rates_from_csv
  dsimp only
  rw [hs.1, hs.2.1, insertBatches004_neverBad]
  refine ⟨?_, rfl, ?_, ?_, ?_⟩
  · show (stagedOf _ _ _).length = _
    rw [stagedOf_length]
  · show _ ++ _ = _
    rw [hrates, hgv.1]
  · exact hjur
  · exact hgv.2

set_option maxHeartbeats 1000000 in

theorem add_rates_spec_dup (st : Store) (rows : List CsvRow) (d : String)
    (hdup : ∀ r ∈ parse004 rows, ∀ p,
      dictGet (build_jurisdiction_cache st) r.region_code = some p →
      (p.1, r.business_code) ∈ existingKeys st (get_or_create_rate_version st d).1) :
    (add_rates_from_csv neverBad st rows d).1.inserted = 0 ∧
    (add_rates_from_csv neverBad st rows d).1.skipped =
      resolvableCount (build_jurisdiction_cache st) (parse004 rows) ∧
    (add_rates_from_csv neverBad st rows d).2.rates = st.rates := by
  have hB := ensure_bc_fold_frame (businessPairs004 rows) st
  have hgv := get_or_create_of_versions_eq st
    ((businessPairs004 rows).foldl (fun s p => ensure_business_code_exists s p.1 p.2) st)
    d hB.2.1
  have hgf := get_or_create_frame
    ((businessPairs004 rows).foldl (fun s p => ensure_business_code_exists s p.1 p.2) st) d
  have hrates : (get_or_create_rate_version
      ((businessPairs004 rows).foldl (fun s p => ensure_business_code_exists s p.1 p.2) st)
      d).2.rates = st.rates := hgf.1.trans hB.2.2
  have hex : existingKeys (get_or_create_rate_version
      ((businessPairs004 rows).foldl (fun s p => ensure_business_code_exists s p.1 p.2) st)
      d).2 (get_or_create_rate_version
      ((businessPairs004 rows).foldl (fun s p => ensure_business_code_exists s p.1 p.2) st)
      d).1 = existingKeys st (get_or_create_rate_version st d).1 := by
    rw [hgv.1]
    exact existingKeys_of_rates_eq st _ _ hrates
  have hdup' : ∀ r ∈ parse004 rows, ∀ p,
      dictGet (build_jurisdiction_cache st) r.region_code = some p →
      (p.1, r.business_code) ∈ existingKeys (get_or_create_rate_version
        ((businessPairs004 rows).foldl (fun s p => ensure_business_code_exists s p.1 p.2) st)
        d).2 (get_or_create_rate_version
        ((businessPairs004 rows).foldl (fun s p => ensure_business_code_exists s p.1 p.2) st)
        d).1 := by
    rw [hex]
    exact hdup
  have hs := stage004_dup (build_jurisdiction_cache st)
    (existingKeys (get_or_create_rate_version
      ((businessPairs004 rows).foldl (fun s p => ensure_business_code_exists s p.1 p.2) st)
      d).2 (get_or_create_rate_version
      ((businessPairs004 rows).foldl (fun s p => ensure_business_code_exists s p.1 p.2) st)
      d).1)
    (get_or_create_rate_version
      ((businessPairs004 rows).foldl (fun s p => ensure_business_code_exists s p.1 p.2) st)
      d).1 (parse004 rows) hdup'
  unfold add_rates_from_csv
  dsimp only
  rw [hs.1, hs.2, insertBatches004_neverBad]
  refine ⟨rfl, rfl, ?_⟩
  show _ ++ _ = _
  rw [List.append_nil, hrates]

/-- C1 (amended): for the script ingest `add_rates_from_csv` of
`004_add_monthly_rates.py`, with a store that accepts every insert and no
parsed record's key already stored for the batch's version, running the
ingest twice with identical rows and effective date gives: first run
`inserted = N` and `skipped_duplicate = 0`, second run `inserted = 0` and
`skipped_duplicate = N`, where N is the number of records that resolve to a
cached jurisdiction; the second run leaves the rate table unchanged.  The web
layer's `parse_csv_content` (`app.py`) does not satisfy this (see the
counterexample). -/
theorem C1_amended (st : Store) (rows : List CsvRow) (d : String)
    (hfresh : ∀ r ∈ parse004 rows,
      keyFresh (build_jurisdiction_cache st)
        (existingKeys st (get_or_create_rate_version st d).1) r = true) :
    (add_rates_from_csv neverBad st rows d).1.inserted =
      resolvableCount (build_jurisdiction_cache st) (parse004 rows) ∧
    (add_rates_from_csv neverBad st rows d).1.skipped = 0 ∧
    (add_rates_from_csv neverBad
        (add_rates_from_csv neverBad st rows d).2 rows d).1.inserted = 0 ∧
    (add_rates_from_csv neverBad
        (add_rates_from_csv neverBad st rows d).2 rows d).1.skipped =
      resolvableCount (build_jurisdiction_cache st) (parse004 rows) ∧
    (add_rates_from_csv neverBad
        (add_rates_from_csv neverBad st rows d).2 rows d).2.rates =
      (add_rates_from_csv neverBad st rows d).2.rates := by
  have h1 := add_rates_spec_fresh st rows d hfresh
  have hcache : build_jurisdiction_cache (add_rates_from_csv neverBad st rows d).2 =
      build_jurisdiction_cache st :=
    build_cache_of_jur_eq _ _ h1.2.2.2.1
  have hsecond := get_or_create_second st (add_rates_from_csv neverBad st rows d).2 d
    h1.2.2.2.2
  have hv1 : (get_or_create_rate_version (add_rates_from_csv neverBad st rows d).2 d).1 =
      (get_or_create_rate_version st d).1 := by
    rw [hsecond]
  have hdup : ∀ r ∈ parse004 rows, ∀ p,
      dictGet (build_jurisdiction_cache (add_rates_from_csv neverBad st rows d).2)
        r.region_code = some p →
      (p.1, r.business_code) ∈ existingKeys (add_rates_from_csv neverBad st rows d).2
        (get_or_create_rate_version (add_rates_from_csv neverBad st rows d).2 d).1 := by
    intro r hr p hget
    rw [hcache] at hget
    rw [hv1]
    exact existingKeys_append_mem st
      (stagedOf (build_jurisdiction_cache st) (get_or_create_rate_version st d).1
        (parse004 rows))
      (get_or_create_rate_version st d).1
      (stagedOf_version _ _ _)
      (p.1, r.business_code)
      (stagedOf_keys _ _ _ r hr p hget)
      (add_rates_from_csv neverBad st rows d).2
      h1.2.2.1
  have h2 := add_rates_spec_dup (add_rates_from_csv neverBad st rows d).2 rows d hdup
  refine ⟨h1.1, h1.2.1, h2.1, ?_, h2.2.2⟩
  rw [h2.2.1, hcache]

/-- Shared evaluation fact: `parse_rate` on the stripped string `"2.4%"`. -/
theorem parse_rate_24pct : parse_rate (pyStrip "2.4%") = 3/125 := by
  have hs : pyStrip "2.4%" = "2.4%" := by decide
  rw [hs]
  have h : floatRep (removePctL (trimL "2.4%".toList)) = some (false, 2, 4, 1) := by decide
  have hq : qOfRep (false, 2, 4, 1) = 12/5 := by norm_num [qOfRep]
  rw [parse_rate, if_neg (by decide : ¬ "2.4%" = ""), parseFloatQCore, h,
    Option.map_some', hq]
  norm_num
  rw [pyRound6_exact _ 24000 (by norm_num)]

/-- Shared evaluation fact: the 004 parser on the single-row PX CSV. -/
theorem parse004_px :
    parse004 [⟨"PX", "Phoenix", "011", "Restaurants", "2.4%", ""⟩] =
      [⟨"PX", "011", (3 : ℚ)/125⟩] := by
  unfold parse004
  rw [List.filterMap_cons, List.filterMap_nil]
  have hrow : parse004Row ⟨"PX", "Phoenix", "011", "Restaurants", "2.4%", ""⟩ =
      some ⟨"PX", "011", (3 : ℚ)/125⟩ := by
    unfold parse004Row
    dsimp only
    rw [parse_rate_24pct]
    rw [if_pos ⟨by decide, by decide, by norm_num⟩]
    rw [show pyStrip "PX" = "PX" from by decide,
      show pyStrip "011" = "011" from by decide]
  rw [hrow]

/-- Witness for `C1_amended`: a store with the PX jurisdiction and no rates,
ingesting the one-row PX CSV twice. -/
theorem C1_amended_witness :
    (∀ r ∈ parse004 [⟨"PX", "Phoenix", "011", "Restaurants", "2.4%", ""⟩],
      keyFresh (build_jurisdiction_cache
          ⟨[⟨1, "city", "AZ", some "PX", none, some "Phoenix", none⟩], [], [], []⟩)
        (existingKeys ⟨[⟨1, "city", "AZ", some "PX", none, some "Phoenix", none⟩], [], [], []⟩
          (get_or_create_rate_version
            ⟨[⟨1, "city", "AZ", some "PX", none, some "Phoenix", none⟩], [], [], []⟩
            "2026-03-01").1) r = true) ∧
    (add_rates_from_csv neverBad
        ⟨[⟨1, "city", "AZ", some "PX", none, some "Phoenix", none⟩], [], [], []⟩
        [⟨"PX", "Phoenix", "011", "Restaurants", "2.4%", ""⟩] "2026-03-01").1.inserted =
      resolvableCount (build_jurisdiction_cache
          ⟨[⟨1, "city", "AZ", some "PX", none, some "Phoenix", none⟩], [], [], []⟩)
        (parse004 [⟨"PX", "Phoenix", "011", "Restaurants", "2.4%", ""⟩]) ∧
    (add_rates_from_csv neverBad
        (add_rates_from_csv neverBad
          ⟨[⟨1, "city", "AZ", some "PX", none, some "Phoenix", none⟩], [], [], []⟩
          [⟨"PX", "Phoenix", "011", "Restaurants", "2.4%", ""⟩] "2026-03-01").2
        [⟨"PX", "Phoenix", "011", "Restaurants", "2.4%", ""⟩] "2026-03-01").1.inserted = 0 ∧
    (add_rates_from_csv neverBad
        (add_rates_from_csv neverBad
          ⟨[⟨1, "city", "AZ", some "PX", none, some "Phoenix", none⟩], [], [], []⟩
          [⟨"PX", "Phoenix", "011", "Restaurants", "2.4%", ""⟩] "2026-03-01").2
        [⟨"PX", "Phoenix", "011", "Restaurants", "2.4%", ""⟩] "2026-03-01").2.rates =
      (add_rates_from_csv neverBad
          ⟨[⟨1, "city", "AZ", some "PX", none, some "Phoenix", none⟩], [], [], []⟩
          [⟨"PX", "Phoenix", "011", "Restaurants", "2.4%", ""⟩] "2026-03-01").2.rates := by
  have hfresh : ∀ r ∈ parse004 [⟨"PX", "Phoenix", "011", "Restaurants", "2.4%", ""⟩],
      keyFresh (build_jurisdiction_cache
          ⟨[⟨1, "city", "AZ", some "PX", none, some "Phoenix", none⟩], [], [], []⟩)
        (existingKeys ⟨[⟨1, "city", "AZ", some "PX", none, some "Phoenix", none⟩], [], [], []⟩
          (get_or_create_rate_version
            ⟨[⟨1, "city", "AZ", some "PX", none, some "Phoenix", none⟩], [], [], []⟩
            "2026-03-01").1) r = true := by
    rw [parse004_px]
    decide
  have h := C1_amended
    ⟨[⟨1, "city", "AZ", some "PX", none, some "Phoenix", none⟩], [], [], []⟩
    [⟨"PX", "Phoenix", "011", "Restaurants", "2.4%", ""⟩] "2026-03-01" hfresh
  exact ⟨hfresh, h.1, h.2.2.1, h.2.2.2.2⟩

/-- C1 counterexample: the web layer's ingest (`parse_csv_content` in
`app.py`) is NOT idempotent: on a second run with the identical CSV and
effective date it creates a second RateVersion for the same date and inserts
the same rate row again (`inserted_count = 1`, rate table grows from 1 to 2
rows), instead of `inserted = 0` with the rate table unchanged. -/
theorem C1_counterexample :
    (parse_csv_content ⟨[], [], [], []⟩
        [⟨"PX", "Phoenix", "011", "Restaurants", "2.4%", ""⟩] "2026-03-01").1.inserted_count =
      1 ∧
    (parse_csv_content ⟨[], [], [], []⟩
        [⟨"PX", "Phoenix", "011", "Restaurants", "2.4%", ""⟩] "2026-03-01").2.rates.length =
      1 ∧
    (parse_csv_content
        (parse_csv_content ⟨[], [], [], []⟩
          [⟨"PX", "Phoenix", "011", "Restaurants", "2.4%", ""⟩] "2026-03-01").2
        [⟨"PX", "Phoenix", "011", "Restaurants", "2.4%", ""⟩] "2026-03-01").1.inserted_count =
      1 ∧
    (parse_csv_content
        (parse_csv_content ⟨[], [], [], []⟩
          [⟨"PX", "Phoenix", "011", "Restaurants", "2.4%", ""⟩] "2026-03-01").2
        [⟨"PX", "Phoenix", "011", "Restaurants", "2.4%", ""⟩] "2026-03-01").2.rates.length =
      2 ∧
    (parse_csv_content
        (parse_csv_content ⟨[], [], [], []⟩
          [⟨"PX", "Phoenix", "011", "Restaurants", "2.4%", ""⟩] "2026-03-01").2
        [⟨"PX", "Phoenix", "011", "Restaurants", "2.4%", ""⟩]
        "2026-03-01").2.rate_versions.length = 2 ∧
    ¬ ((parse_csv_content
          (parse_csv_content ⟨[], [], [], []⟩
            [⟨"PX", "Phoenix", "011", "Restaurants", "2.4%", ""⟩] "2026-03-01").2
          [⟨"PX", "Phoenix", "011", "Restaurants", "2.4%", ""⟩]
          "2026-03-01").1.inserted_count = 0 ∧
        (parse_csv_content
          (parse_csv_content ⟨[], [], [], []⟩
            [⟨"PX", "Phoenix", "011", "Restaurants", "2.4%", ""⟩] "2026-03-01").2
          [⟨"PX", "Phoenix", "011", "Restaurants", "2.4%", ""⟩] "2026-03-01").2.rates =
        (parse_csv_content ⟨[], [], [], []⟩
          [⟨"PX", "Phoenix", "011", "Restaurants", "2.4%", ""⟩] "2026-03-01").2.rates) := by
  have hrd : appRateDecimal (pyStrip "2.4%") = 3/125 := by
    have h0 : floatRep (removePctL (pyStrip "2.4%").toList) = some (false, 2, 4, 1) := by
      decide
    rw [appRateDecimal, parseFloatQCore, h0, Option.map_some']
    norm_num [qOfRep]
  have hrow : appParseRow ⟨"PX", "Phoenix", "011", "Restaurants", "2.4%", ""⟩ =
      some ⟨"PX", "Phoenix", "011", "Restaurants", (3 : ℚ)/125⟩ := by
    unfold appParseRow
    dsimp only
    rw [hrd]
    rw [if_pos ⟨by decide, by decide, by norm_num⟩]
    rw [show pyStrip "PX" = "PX" from by decide,
      show pyStrip "Phoenix" = "Phoenix" from by decide,
      show pyStrip "011" = "011" from by decide,
      show pyStrip "Restaurants" = "Restaurants" from by decide]
  have happ : appParse [⟨"PX", "Phoenix", "011", "Restaurants", "2.4%", ""⟩] =
      [⟨"PX", "Phoenix", "011", "Restaurants", (3 : ℚ)/125⟩] := by
    unfold appParse
    rw [List.filterMap_cons, hrow, List.filterMap_nil]
  have h3 : (parse_csv_content
      (parse_csv_content ⟨[], [], [], []⟩
        [⟨"PX", "Phoenix", "011", "Restaurants", "2.4%", ""⟩] "2026-03-01").2
      [⟨"PX", "Phoenix", "011", "Restaurants", "2.4%", ""⟩] "2026-03-01").1.inserted_count =
      1 := by
    simp only [parse_csv_content, happ]
    rfl
  refine ⟨?_, ?_, h3, ?_, ?_, ?_⟩
  · simp only [parse_csv_content, happ]
    rfl
  · simp only [parse_csv_content, happ]
    rfl
  · simp only [parse_csv_content, happ]
    rfl
  · simp only [parse_csv_content, happ]
    rfl
  · rintro ⟨h0, -⟩
    rw [h3] at h0
    exact one_ne_zero h0
